import Mathlib

/-!
# Verification of the SJ Professional Directory core

A shallow embedding of the record-merge, normalization, identity-resolution,
inference and query-ranking logic of the SJ Professional Directory
(`database.py`, `text_processor.py`, `data_processor.py`, `ai_inference.py`,
`query_processor.py`, `config.py`), together with proofs and refutations of
the specification's claims about it.

Machine integers are modelled as `Nat`/`Int`, Python floats as `Rat`,
Python `None`-able values as `Option`, and code that raises as `Except`.
-/

namespace SJDirectory

/-! ## Shared string utilities

Python string primitives used throughout the sources, modelled over
`List Char` so that everything computes by kernel reduction. -/

/-- Python `sub in s` substring containment, on character lists.
`[].isPrefixOf` is `true`, matching Python's `"" in s == True`. -/
def listContainsSub (sub : List Char) : List Char → Bool
  | [] => sub.isPrefixOf []
  | c :: rest => sub.isPrefixOf (c :: rest) || listContainsSub sub rest

/-- Python `sub in s` for strings. -/
def strContains (s sub : String) : Bool :=
  listContainsSub sub.toList s.toList

/-- ASCII lowercase of one character (Python `str.lower()` on ASCII input). -/
def pyLowerChar (c : Char) : Char :=
  if 'A' ≤ c ∧ c ≤ 'Z' then Char.ofNat (c.toNat + 32) else c

/-- ASCII uppercase of one character (Python `str.upper()` on ASCII input). -/
def pyUpperChar (c : Char) : Char :=
  if 'a' ≤ c ∧ c ≤ 'z' then Char.ofNat (c.toNat - 32) else c

/-- Python `str.lower()` (ASCII model). -/
def pyLower (s : String) : String :=
  String.mk (s.toList.map pyLowerChar)

/-- Python `str.upper()` (ASCII model). -/
def pyUpper (s : String) : String :=
  String.mk (s.toList.map pyUpperChar)

/-- Python whitespace class (`str.split()` / `\s` / `str.strip()`). -/
def isPySpace (c : Char) : Bool :=
  c = ' ' || c = '\t' || c = '\n' || c = '\r' || c = '\x0b' || c = '\x0c'

/-- Python `str.strip()`. -/
def pyStrip (s : String) : String :=
  String.mk (((s.toList.dropWhile isPySpace).reverse.dropWhile isPySpace).reverse)

/-- Split a character list on runs of whitespace, discarding empty fields:
Python's no-argument `str.split()`. -/
def pySplitWsAux : List Char → List Char → List String
  | acc, [] => if acc.isEmpty then [] else [String.mk acc.reverse]
  | acc, c :: rest =>
    if isPySpace c then
      if acc.isEmpty then pySplitWsAux [] rest
      else String.mk acc.reverse :: pySplitWsAux [] rest
    else pySplitWsAux (c :: acc) rest

/-- Python `str.split()` (no separator: split on whitespace runs). -/
def pySplitWs (s : String) : List String :=
  pySplitWsAux [] s.toList

/-- Python `str.split(sep)` is `String.splitOn`. -/
def pySplitOn (s sep : String) : List String := s.splitOn sep

/-- ASCII digit test (`\d` on the ASCII inputs handled by this program). -/
def isPyDigit (c : Char) : Bool := '0' ≤ c ∧ c ≤ '9'

/-- ASCII letter test (`[A-Z]` under `re.IGNORECASE`). -/
def isPyAlpha (c : Char) : Bool :=
  ('A' ≤ c ∧ c ≤ 'Z') || ('a' ≤ c ∧ c ≤ 'z')

/-- Python `\w` word-character class (ASCII model). -/
def isPyWord (c : Char) : Bool := isPyAlpha c || isPyDigit c || c = '_'

/-- Numeric value of a digit string (Python `int` on an all-digit string). -/
def digitsToNat (ds : List Char) : Nat :=
  ds.foldl (fun acc c => acc * 10 + (c.toNat - '0'.toNat)) 0

/-! ## `DatabaseManager.merge_duplicates` (`database.py` lines 378–421)

The `members` table is modelled as a partial map from row id to the fields
the merge operation reads and writes: `is_duplicate` and
`primary_record_id`.  `merge_duplicates` begins a transaction, looks the
primary record up (raising `ValueError`, hence rolling back, when it does
not exist), and then for each duplicate id runs
`UPDATE members SET is_duplicate = TRUE, primary_record_id = ? WHERE id = ?`,
finally committing and reporting `merged_count = len(duplicate_ids)`. -/

/-- The merge-relevant fields of one `members` row. -/
structure MemberRow where
  is_duplicate : Bool
  primary_record_id : Option Nat
deriving DecidableEq, Repr

/-- The `members` table: row id to row (`none` = no such row). -/
def Store : Type := Nat → Option MemberRow

/-- One `UPDATE members SET is_duplicate = TRUE, primary_record_id = p WHERE id = d`. -/
def markDuplicate (p : Nat) (s : Store) (d : Nat) : Store :=
  fun i => if i = d then (s i).map (fun _ => ⟨true, some p⟩) else s i

/-- Result dict of a successful `merge_duplicates` call. -/
structure MergeResult where
  primary_id : Nat
  merged_count : Nat
  merged_ids : List Nat
deriving DecidableEq, Repr

/-- `DatabaseManager.merge_duplicates`: check the primary exists, then mark
every id in `duplicate_ids` as a duplicate of `primary_id`.  The error case
models the raised `ValueError` (the transaction is rolled back, so the
caller observes the original store). -/
def merge_duplicates (primary_id : Nat) (duplicate_ids : List Nat) (s : Store) :
    Except String (Store × MergeResult) :=
  match s primary_id with
  | none => .error "Primary member not found"
  | some _ =>
    .ok (duplicate_ids.foldl (markDuplicate primary_id) s,
         ⟨primary_id, duplicate_ids.length, duplicate_ids⟩)

/-- The store the caller observes after a `merge_duplicates` call:
the committed store on success, the rolled-back original on error. -/
def mergeCommit (primary_id : Nat) (duplicate_ids : List Nat) (s : Store) : Store :=
  match merge_duplicates primary_id duplicate_ids s with
  | .ok (s', _) => s'
  | .error _ => s

/-- Run a sequence of `merge_duplicates` calls, stopping at the first error. -/
def runMerges : Store → List (Nat × List Nat) → Except String Store
  | s, [] => .ok s
  | s, (p, ids) :: rest =>
    match merge_duplicates p ids s with
    | .ok (s', _) => runMerges s' rest
    | .error e => .error e

/-- Pointwise characterization of the update loop of `merge_duplicates`. -/
theorem foldl_markDuplicate (p : Nat) (ids : List Nat) (s : Store) (q : Nat) :
    (ids.foldl (markDuplicate p) s) q =
      if q ∈ ids then (s q).map (fun _ => ⟨true, some p⟩) else s q := by
  induction ids generalizing s with
  | nil => simp
  | cons d rest ih =>
    rw [List.foldl_cons, ih]
    by_cases hd : q = d
    · subst hd
      by_cases hq : q ∈ rest
      · simp only [markDuplicate, if_pos rfl, if_pos hq, List.mem_cons, true_or,
          if_pos, Option.map_map]
        cases s q <;> rfl
      · simp [markDuplicate, hq]
    · by_cases hq : q ∈ rest <;> simp [markDuplicate, hq, hd]

/-- The duplicate-chain invariant: every duplicate's `primary_record_id`
refers to an existing, distinct, non-duplicate record. -/
def NoChains (s : Store) : Prop :=
  ∀ i m, s i = some m → m.is_duplicate = true →
    ∃ j mj, m.primary_record_id = some j ∧ j ≠ i ∧ s j = some mj ∧
      mj.is_duplicate = false

/-- A store containing no duplicates at all. -/
def DupFree (s : Store) : Prop :=
  ∀ i m, s i = some m → m.is_duplicate = false

/-- Sanity conditions on one `merge_duplicates` call: the primary exists and
is not itself a duplicate, is not among the duplicate ids, and no duplicate
id is currently the primary of some duplicate record. -/
def GoodCall (s : Store) (p : Nat) (ids : List Nat) : Prop :=
  (∃ mp, s p = some mp ∧ mp.is_duplicate = false) ∧
  p ∉ ids ∧
  (∀ d ∈ ids, ∀ i m, s i = some m → m.is_duplicate = true →
     m.primary_record_id ≠ some d)

/-- `GoodCall` holding along a whole sequence of calls. -/
def GoodSeq : Store → List (Nat × List Nat) → Prop
  | _, [] => True
  | s, (p, ids) :: rest =>
    GoodCall s p ids ∧
    ∀ s' r, merge_duplicates p ids s = .ok (s', r) → GoodSeq s' rest

theorem DupFree.noChains {s : Store} (h : DupFree s) : NoChains s := by
  intro i m hm hdup
  exact absurd hdup (by simp [h i m hm])

/-- One `GoodCall` merge preserves the duplicate-chain invariant. -/
theorem mergeDuplicates_preserves_noChains {s : Store} {p : Nat} {ids : List Nat}
    (hnc : NoChains s) (hg : GoodCall s p ids) {s' : Store} {r : MergeResult}
    (h : merge_duplicates p ids s = .ok (s', r)) : NoChains s' := by
  obtain ⟨⟨mp, hmp, hmpdup⟩, hpni, hnp⟩ := hg
  have hs' : s' = ids.foldl (markDuplicate p) s := by
    unfold merge_duplicates at h
    rw [hmp] at h
    exact (congrArg Prod.fst (Except.ok.inj h)).symm
  subst hs'
  intro i m hm hdup
  rw [foldl_markDuplicate] at hm
  by_cases hi : i ∈ ids
  · rw [if_pos hi] at hm
    obtain ⟨mi, hmi, rfl⟩ := Option.map_eq_some'.mp hm
    refine ⟨p, mp, rfl, fun hpi => hpni (hpi ▸ hi), ?_, hmpdup⟩
    rw [foldl_markDuplicate, if_neg hpni]
    exact hmp
  · rw [if_neg hi] at hm
    obtain ⟨j, mj, hpr, hji, hj, hjdup⟩ := hnc i m hm hdup
    have hjni : j ∉ ids := fun hjin => hnp j hjin i m hm hdup hpr
    refine ⟨j, mj, hpr, hji, ?_, hjdup⟩
    rw [foldl_markDuplicate, if_neg hjni]
    exact hj

/-- **C1 (amended)**: starting from a store with no duplicates, after any
sequence of `merge_duplicates` calls in which each call's primary record
exists, is not itself a duplicate, is not listed among its own
`duplicate_ids`, and no listed duplicate id is the `primary_record_id` of a
record already marked duplicate, every record with `is_duplicate = true`
has a `primary_record_id` referring to an existing record that is distinct
from it and has `is_duplicate = false`. -/
theorem c1_no_duplicate_chains_amended (s : Store) (calls : List (Nat × List Nat))
    (s' : Store) (hfree : DupFree s) (hgood : GoodSeq s calls)
    (hrun : runMerges s calls = .ok s') : NoChains s' := by
  have main : ∀ calls s s', NoChains s → GoodSeq s calls →
      runMerges s calls = .ok s' → NoChains s' := by
    intro calls
    induction calls with
    | nil =>
      intro s s' hnc _ hrun
      cases hrun
      exact hnc
    | cons c rest ih =>
      intro s s' hnc hgood hrun
      obtain ⟨p, ids⟩ := c
      obtain ⟨hgc, hgs⟩ := hgood
      unfold runMerges at hrun
      cases hm : merge_duplicates p ids s with
      | error e => rw [hm] at hrun; cases hrun
      | ok sr =>
        obtain ⟨s₁, r⟩ := sr
        rw [hm] at hrun
        exact ih s₁ s' (mergeDuplicates_preserves_noChains hnc hgc hm)
          (hgs s₁ r hm) hrun
  exact main calls s s' hfree.noChains hgood hrun

/-- A three-record store with no duplicates, used to exhibit the chain. -/
def chainStore : Store :=
  fun i => if i = 1 ∨ i = 2 ∨ i = 3 then some ⟨false, none⟩ else none

theorem chainStore_dupFree : DupFree chainStore := by
  intro i m hm
  unfold chainStore at hm
  split at hm
  · cases hm; rfl
  · cases hm

/-- **C1 (counterexample)**: from the duplicate-free store `{1, 2, 3}`, the
call sequence `merge_duplicates 1 [2]` then `merge_duplicates 2 [3]` both
succeed, and leave record 3 marked `is_duplicate` with
`primary_record_id = 2` while record 2 is itself marked `is_duplicate`:
a duplicate chain, refuting the claim for arbitrary call sequences. -/
theorem c1_counterexample :
    (mergeCommit 2 [3] (mergeCommit 1 [2] chainStore)) 3 =
        some ⟨true, some 2⟩ ∧
      (mergeCommit 2 [3] (mergeCommit 1 [2] chainStore)) 2 =
        some ⟨true, some 1⟩ := by
  constructor <;> rfl

/-- Witness for the amended C1 theorem: a concrete good call sequence on
`chainStore` whose final store satisfies the invariant. -/
theorem c1_witness :
    NoChains (List.foldl (markDuplicate 1) chainStore [2, 3]) := by
  refine c1_no_duplicate_chains_amended chainStore [(1, [2, 3])]
    (List.foldl (markDuplicate 1) chainStore [2, 3]) chainStore_dupFree
    ⟨⟨⟨⟨false, none⟩, rfl, rfl⟩, by decide, ?_⟩, fun _ _ _ => trivial⟩ rfl
  intro d _ i m hm hdup
  exact absurd hdup (by simp [chainStore_dupFree i m hm])

/-- **C8**: when the primary record does not exist, `merge_duplicates`
raises an error to the caller and the observed store is unchanged: no
record's `is_duplicate` or `primary_record_id` is modified. -/
theorem c8_merge_atomic_missing_primary (p : Nat) (ids : List Nat) (s : Store)
    (h : s p = none) :
    merge_duplicates p ids s = .error "Primary member not found" ∧
      mergeCommit p ids s = s := by
  have herr : merge_duplicates p ids s = .error "Primary member not found" := by
    unfold merge_duplicates
    rw [h]
  exact ⟨herr, by unfold mergeCommit; rw [herr]⟩

/-- Witness for C8 at a concrete store: the empty store has no record 1. -/
theorem c8_witness :
    merge_duplicates 1 [2] (fun _ => none) = .error "Primary member not found" ∧
      mergeCommit 1 [2] (fun _ => none) = (fun _ => none) :=
  c8_merge_atomic_missing_primary 1 [2] (fun _ => none) rfl

/-- **C10**: `merge_duplicates` never validates `duplicate_ids` against the
primary: when the primary record `p` exists and `p` is itself listed in
`duplicate_ids`, the call succeeds, marks `p` as a self-referencing
duplicate (`is_duplicate = true`, `primary_record_id = p`), and counts it
among the merged records (`merged_count = duplicate_ids.length`). -/
theorem c10_self_merge_unvalidated (p : Nat) (ids : List Nat) (s : Store)
    (m : MemberRow) (hp : s p = some m) (hmem : p ∈ ids) :
    ∃ s' r, merge_duplicates p ids s = .ok (s', r) ∧
      s' p = some ⟨true, some p⟩ ∧
      r.merged_count = ids.length ∧ r.primary_id = p := by
  refine ⟨ids.foldl (markDuplicate p) s, ⟨p, ids.length, ids⟩, ?_, ?_, rfl, rfl⟩
  · unfold merge_duplicates
    rw [hp]
  · rw [foldl_markDuplicate, if_pos hmem, hp]
    rfl

/-- Witness for C10: merging record 1 into itself on a one-record store. -/
theorem c10_witness :
    ∃ s' r,
      merge_duplicates 1 [1] (fun i => if i = 1 then some ⟨false, none⟩ else none) =
          .ok (s', r) ∧
        s' 1 = some ⟨true, some 1⟩ ∧ r.merged_count = 1 ∧ r.primary_id = 1 := by
  have h := c10_self_merge_unvalidated 1 [1]
    (fun i => if i = 1 then some ⟨false, none⟩ else none) ⟨false, none⟩ rfl
    (by decide)
  simpa using h

/-! ## `TextProcessor.normalize_batch` (`text_processor.py` lines 42–109)

`normalize_batch` tries the ordered `BATCH_PATTERNS` of `config.py`
(lines 135–141) with `re.search(..., re.IGNORECASE)`:

    (\d{2,4})-([A-Z]+\d*)              -- 95-S, 2001-B1
    Batch\s+(\d{2,4})-([A-Z]+\d*)      -- Batch 95-S
    Batch\s+No[:\.]?\s*(\d{2,4})-([A-Z]+\d*)
    Batch\s+(\d{2,4})                  -- Batch 99
    (\d{2,4})                          -- bare numbers

Each pattern is implemented as a leftmost-match searcher with the
backtracking order of the Python `re` engine (for `\d{2,4}` the longest
digit run first). -/

/-- Leftmost-match search: try the position matcher `m` at every suffix,
left to right, as `re.search` does. -/
def searchAux {α : Type} (m : List Char → Option α) : List Char → Option α
  | [] => m []
  | c :: rest =>
    match m (c :: rest) with
    | some r => some r
    | none => searchAux m rest

/-- Match `(\d{2,4})-([A-Z]+\d*)` at the head of `cs`, returning the year
digits, the letter part, and the trailing digit part of the second group.
`\d{2,4}` is greedy, so lengths 4, 3, 2 are tried in that order. -/
def matchYearSem (cs : List Char) : Option (List Char × List Char × List Char) :=
  [4, 3, 2].findSome? fun n =>
    let ds := cs.take n
    if ds.length = n ∧ ds.all isPyDigit then
      match cs.drop n with
      | '-' :: rest =>
        let ls := rest.takeWhile isPyAlpha
        if ls.isEmpty then none
        else some (ds, ls, (rest.drop ls.length).takeWhile isPyDigit)
      | _ => none
    else none

/-- Strip a case-insensitive literal (given in lowercase) from the head. -/
def ciLitAt : List Char → List Char → Option (List Char)
  | [], cs => some cs
  | _ :: _, [] => none
  | l :: ls, c :: cs => if pyLowerChar c = l then ciLitAt ls cs else none

/-- Match `\s+` at the head (greedy; the following classes are disjoint
from whitespace, so no backtracking is ever needed). -/
def spaces1 (cs : List Char) : Option (List Char) :=
  let sp := cs.takeWhile isPySpace
  if sp.isEmpty then none else some (cs.drop sp.length)

/-- Match `Batch\s+(\d{2,4})-([A-Z]+\d*)` at the head. -/
def matchP1At (cs : List Char) : Option (List Char × List Char × List Char) :=
  (ciLitAt "batch".toList cs).bind fun cs1 =>
    (spaces1 cs1).bind matchYearSem

/-- Match `Batch\s+No[:\.]?\s*(\d{2,4})-([A-Z]+\d*)` at the head.
`[:\.]?` is greedy: the alternative consuming the punctuation character is
tried before the empty one. -/
def matchP2At (cs : List Char) : Option (List Char × List Char × List Char) :=
  (ciLitAt "batch".toList cs).bind fun cs1 =>
    (spaces1 cs1).bind fun cs2 =>
      (ciLitAt "no".toList cs2).bind fun cs3 =>
        let starts : List (List Char) :=
          match cs3 with
          | ':' :: r => [r, cs3]
          | '.' :: r => [r, cs3]
          | _ => [cs3]
        starts.findSome? fun cs4 => matchYearSem (cs4.dropWhile isPySpace)

/-- Match `(\d{2,4})` at the head (greedy, longest first, no constraint
after it, so the longest available run of 2–4 digits wins). -/
def matchDigits24 (cs : List Char) : Option (List Char) :=
  [4, 3, 2].findSome? fun n =>
    let ds := cs.take n
    if ds.length = n ∧ ds.all isPyDigit then some ds else none

/-- Match `Batch\s+(\d{2,4})` at the head. -/
def matchP3At (cs : List Char) : Option (List Char) :=
  (ciLitAt "batch".toList cs).bind fun cs1 =>
    (spaces1 cs1).bind matchDigits24

/-- Run the ordered `BATCH_PATTERNS` list, first match wins, yielding the
year group and, for the two-group patterns, the semester group already
split into its `([A-Z]+)(\d*)` letter and digit parts (the source re-parses
the captured semester string with exactly that anchored pattern, which
always succeeds on a `[A-Z]+\d*` capture). -/
def batchGroups (cs : List Char) :
    Option (List Char × Option (List Char × List Char)) :=
  match searchAux matchYearSem cs with
  | some (ys, ls, ts) => some (ys, some (ls, ts))
  | none =>
    match searchAux matchP1At cs with
    | some (ys, ls, ts) => some (ys, some (ls, ts))
    | none =>
      match searchAux matchP2At cs with
      | some (ys, ls, ts) => some (ys, some (ls, ts))
      | none =>
        match searchAux matchP3At cs with
        | some ys => some (ys, none)
        | none =>
          match searchAux matchDigits24 cs with
          | some ys => some (ys, none)
          | none => none

/-- 2-digit-year adjustment of `normalize_batch`
(`if year < 50: year += 2000 elif year < 100: year += 1900`). -/
def adjustYear (y : Nat) : Nat :=
  if y < 50 then y + 2000 else if y < 100 then y + 1900 else y

/-- The era tag computed by `normalize_batch`. -/
def batchEra (y : Nat) : String :=
  if 1990 ≤ y ∧ y < 2000 then "90s"
  else if 2000 ≤ y ∧ y < 2010 then "2000s"
  else if 2010 ≤ y ∧ y < 2020 then "2010s"
  else toString y ++ "s"

/-- The structured result dict of `normalize_batch` (for a truthy input). -/
structure BatchInfo where
  batch_original : String
  batch_normalized : Option String := none
  batch_year : Option Nat := none
  batch_semester : Option String := none
  batch_sub_number : Option Nat := none
  batch_decade : Option Nat := none
  batch_era : Option String := none
deriving DecidableEq, Repr

/-- The `batch_normalized` build: `"{year}-{semester}"`, appending the
sub-number when truthy, falling back to the bare year string; the source
guards each piece with Python truthiness (`0` and `""` count as absent). -/
def buildBatchNormalized (year : Nat) (sem : Option String) (sub : Option Nat) :
    Option String :=
  match sem with
  | some s =>
    if year ≠ 0 ∧ s ≠ "" then
      some (toString year ++ "-" ++ s ++
        (match sub with
         | some n => if n ≠ 0 then toString n else ""
         | none => ""))
    else if year ≠ 0 then some (toString year) else none
  | none => if year ≠ 0 then some (toString year) else none

/-- `TextProcessor.normalize_batch`.  Returns `none` for falsy input
(the source returns `{}`). -/
def normalize_batch (batch_str : String) : Option BatchInfo :=
  if batch_str = "" then none
  else some <|
    match batchGroups batch_str.toList with
    | none => { batch_original := batch_str }
    | some (ys, semGroup) =>
      let year := adjustYear (digitsToNat ys)
      let sem : Option String :=
        match semGroup with
        | some (ls, _) => some (pyUpper (String.mk ls))
        | none => none
      let sub : Option Nat :=
        match semGroup with
        | some (_, ts) => if ts.isEmpty then none else some (digitsToNat ts)
        | none => none
      { batch_original := batch_str
        batch_year := some year
        batch_decade := some (year / 10 * 10)
        batch_era := some (batchEra year)
        batch_semester := sem
        batch_sub_number := sub
        batch_normalized := buildBatchNormalized year sem sub }

/-- **C4**: `normalize_batch "Batch 95-S"` yields year 1995, semester `"S"`
and normalized form `"1995-S"`; `normalize_batch "2001-B1"` yields year
2001, semester `"B"`, sub-number 1 and normalized form `"2001-B1"`; and
the year adjustment maps every extracted 2-digit year 00–49 to 2000–2049
and every 2-digit year 50–99 to 1950–1999. -/
theorem c4_batch_normalization :
    normalize_batch "Batch 95-S" =
        some { batch_original := "Batch 95-S", batch_normalized := some "1995-S",
               batch_year := some 1995, batch_semester := some "S",
               batch_sub_number := none, batch_decade := some 1990,
               batch_era := some "90s" } ∧
      normalize_batch "2001-B1" =
        some { batch_original := "2001-B1", batch_normalized := some "2001-B1",
               batch_year := some 2001, batch_semester := some "B",
               batch_sub_number := some 1, batch_decade := some 2000,
               batch_era := some "2000s" } ∧
      (∀ y : Nat, y ≤ 49 → adjustYear y = 2000 + y) ∧
      (∀ y : Nat, 50 ≤ y → y ≤ 99 → adjustYear y = 1900 + y) := by
  refine ⟨by decide, by decide, fun y hy => ?_, fun y h1 h2 => ?_⟩
  · unfold adjustYear
    rw [if_pos (by omega)]
    omega
  · unfold adjustYear
    rw [if_neg (by omega), if_pos (by omega)]
    omega

/-- Witness for C4's universally quantified year-adjustment clauses at
concrete 2-digit years. -/
theorem c4_witness : adjustYear 5 = 2005 ∧ adjustYear 95 = 1995 :=
  ⟨(c4_batch_normalization.2.2.1 5 (by decide)).trans (by decide),
   (c4_batch_normalization.2.2.2 95 (by decide) (by decide)).trans (by decide)⟩

/-! ## `DataProcessor._merge_member_data` (`data_processor.py` lines 492–528)

Python field values are modelled by `PVal`: `None`, strings, numbers
(Python floats as exact rationals) and dates (as day ordinals).  The merge
walks the incoming dict in order and decides per field whether to put the
incoming value into the update map. -/

/-- A Python value stored in a member-record field. -/
inductive PVal where
  | pnone
  | pstr (s : String)
  | pnum (q : ℚ)
  | pdate (d : ℤ)
deriving DecidableEq, Repr

/-- Python truthiness (`if not existing_value`): `None`, `""` and `0` are
falsy; date objects are always truthy. -/
def PVal.falsy : PVal → Bool
  | .pnone => true
  | .pstr s => s.isEmpty
  | .pnum q => q == 0
  | .pdate _ => false

/-- `isinstance(x, (date, datetime))`. -/
def PVal.isDate : PVal → Bool
  | .pdate _ => true
  | _ => false

/-- Python `str(x)`.  The merge only compares lengths of these
representations; `None` prints as `"None"`, numbers and dates via
`toString`. -/
def PVal.strRepr : PVal → String
  | .pnone => "None"
  | .pstr s => s
  | .pnum q => toString q
  | .pdate d => toString d

/-- Python `float(x)`.  Conversion of numeric strings is not modelled: the
merge's confidence fields carry numeric values in the program; `float()`
on any other value raises. -/
def pyFloat : PVal → Except String ℚ
  | .pnum q => .ok q
  | _ => .error "TypeError: float() argument"

/-- Python `a > b` on field values: dates compare by ordinal, anything
else raises `TypeError` (the merge only reaches this comparison with a
date on the left). -/
def pyDateGT : PVal → PVal → Except String Bool
  | .pdate a, .pdate b => .ok (decide (b < a))
  | _, _ => .error "TypeError: unorderable types"

/-- The fields `_merge_member_data` skips outright. -/
def excludedMergeFields : List String := ["id", "created_at", "updated_at"]

/-- The per-field decision of the `_merge_member_data` loop body: whether
`new_value` for `field` enters the update map, given the existing record.
Mirrors the source's branch order: skip excluded fields and `None` values;
adopt unconditionally when the existing value is falsy; `collected_date`
fields adopt only a strictly more recent date; `confidence` fields only a
strictly greater float; all other fields only a strictly longer `str()`
representation. -/
def mergeDecision (existing : String → Option PVal) (field : String) (newv : PVal) :
    Except String Bool :=
  if field ∈ excludedMergeFields then .ok false
  else if newv = .pnone then .ok false
  else if ((existing field).getD .pnone).falsy then .ok true
  else if strContains field "collected_date" then
    if newv.isDate then pyDateGT newv ((existing field).getD .pnone) else .ok false
  else if strContains field "confidence" then
    match pyFloat newv, pyFloat ((existing field).getD .pnone) with
    | .ok a, .ok b => .ok (decide (b < a))
    | .error m, _ => .error m
    | _, .error m => .error m
  else .ok (decide ((PVal.strRepr ((existing field).getD .pnone)).length <
    (PVal.strRepr newv).length))

/-- `updates[field] = new_value`. -/
def updSet (u : String → Option PVal) (f : String) (v : PVal) :
    String → Option PVal :=
  fun g => if g = f then some v else u g

/-- One iteration of the `for field, new_value in new.items()` loop. -/
def mergeField (existing : String → Option PVal) (u : String → Option PVal)
    (fv : String × PVal) : Except String (String → Option PVal) :=
  match mergeDecision existing fv.1 fv.2 with
  | .ok true => .ok (updSet u fv.1 fv.2)
  | .ok false => .ok u
  | .error m => .error m

/-- `DataProcessor._merge_member_data`: fold the incoming dict (an ordered
association list with distinct keys) into an update map, starting empty. -/
def merge_member_data (existing : String → Option PVal)
    (incoming : List (String × PVal)) : Except String (String → Option PVal) :=
  incoming.foldlM (mergeField existing) (fun _ => none)

theorem mergeField_ok_other {e u : String → Option PVal} {fv : String × PVal}
    {u' : String → Option PVal} (h : mergeField e u fv = .ok u') {g : String}
    (hg : g ≠ fv.1) : u' g = u g := by
  unfold mergeField at h
  split at h
  · cases h
    simp [updSet, hg]
  · cases h
    rfl
  · cases h

theorem mergeDecision_excluded {e : String → Option PVal} {f : String}
    {v : PVal} (hf : f ∈ excludedMergeFields) : mergeDecision e f v ≠ .ok true := by
  unfold mergeDecision
  rw [if_pos hf]
  simp

/-- When the decision is positive and the existing value is truthy, one of
the claim's three override rules holds. -/
theorem mergeDecision_true_nonfalsy {e : String → Option PVal} {f : String}
    {v : PVal} (h : mergeDecision e f v = .ok true)
    (hev : ((e f).getD .pnone).falsy = false) :
    (strContains f "collected_date" = true ∧ v.isDate = true ∧
       pyDateGT v ((e f).getD .pnone) = .ok true) ∨
    (strContains f "collected_date" = false ∧ strContains f "confidence" = true ∧
       ∃ a b, pyFloat v = .ok a ∧ pyFloat ((e f).getD .pnone) = .ok b ∧ b < a) ∨
    (strContains f "collected_date" = false ∧ strContains f "confidence" = false ∧
       (PVal.strRepr ((e f).getD .pnone)).length < (PVal.strRepr v).length) := by
  unfold mergeDecision at h
  split at h
  · simp at h
  · split at h
    · simp at h
    · rw [hev] at h
      simp only [Bool.false_eq_true, if_false] at h
      by_cases hcd : strContains f "collected_date" = true
      · rw [if_pos hcd] at h
        left
        split at h
        · exact ⟨hcd, by assumption, h⟩
        · simp at h
      · rw [if_neg hcd] at h
        by_cases hcf : strContains f "confidence" = true
        · rw [if_pos hcf] at h
          right; left
          refine ⟨by simpa using hcd, hcf, ?_⟩
          split at h
          · next a b ha hb =>
            refine ⟨a, b, ha, hb, ?_⟩
            simpa using h
          · cases h
          · cases h
        · rw [if_neg hcf] at h
          right; right
          exact ⟨by simpa using hcd, by simpa using hcf, by simpa using h⟩

/-- Pointwise characterization of the merge fold: every binding in the
final update map comes from the accumulator or from an incoming pair whose
merge decision was positive. -/
theorem merge_foldlM_char (e : String → Option PVal) :
    ∀ (inc : List (String × PVal)) (acc u : String → Option PVal),
      inc.foldlM (mergeField e) acc = .ok u → ∀ f,
        u f = acc f ∨
          ∃ v, u f = some v ∧ (f, v) ∈ inc ∧ mergeDecision e f v = .ok true := by
  intro inc
  induction inc with
  | nil =>
    intro acc u h f
    simp only [List.foldlM_nil] at h
    cases h
    exact Or.inl rfl
  | cons x rest ih =>
    intro acc u h f
    simp only [List.foldlM_cons] at h
    cases hm : mergeField e acc x with
    | error m => rw [hm] at h; cases h
    | ok acc' =>
      rw [hm] at h
      rcases ih acc' u h f with h1 | ⟨v, hv, hmem, hdec⟩
      · by_cases hf : f = x.1
        · subst hf
          unfold mergeField at hm
          split at hm
          · cases hm
            next hdec =>
              exact Or.inr ⟨x.2, by rw [h1]; simp [updSet],
                by simp, hdec⟩
          · cases hm
            exact Or.inl (by rw [h1])
          · cases hm
        · exact Or.inl (h1.trans (mergeField_ok_other hm hf))
      · exact Or.inr ⟨v, hv, List.mem_cons_of_mem _ hmem, hdec⟩

/-- Fields not named by the incoming dict are untouched by the fold. -/
theorem merge_foldlM_not_mem (e : String → Option PVal) :
    ∀ (inc : List (String × PVal)) (acc u : String → Option PVal),
      inc.foldlM (mergeField e) acc = .ok u → ∀ f,
        f ∉ inc.map Prod.fst → u f = acc f := by
  intro inc
  induction inc with
  | nil =>
    intro acc u h f _
    simp only [List.foldlM_nil] at h
    cases h
    rfl
  | cons x rest ih =>
    intro acc u h f hf
    simp only [List.foldlM_cons] at h
    cases hm : mergeField e acc x with
    | error m => rw [hm] at h; cases h
    | ok acc' =>
      rw [hm] at h
      have hf1 : f ≠ x.1 := fun hx => hf (by simp [hx])
      have hf2 : f ∉ rest.map Prod.fst := fun hx => hf (by simp [hx])
      exact (ih acc' u h f hf2).trans (mergeField_ok_other hm hf1)

/-- Unconditional adoption: an incoming non-`None` value for a non-excluded
field whose existing value is falsy always lands in the update map. -/
theorem merge_foldlM_adopt (e : String → Option PVal) :
    ∀ (inc : List (String × PVal)) (acc u : String → Option PVal),
      (inc.map Prod.fst).Nodup →
      inc.foldlM (mergeField e) acc = .ok u → ∀ f v,
        (f, v) ∈ inc → f ∉ excludedMergeFields → v ≠ .pnone →
        ((e f).getD .pnone).falsy = true → u f = some v := by
  intro inc
  induction inc with
  | nil =>
    intro acc u _ _ f v hmem
    cases hmem
  | cons x rest ih =>
    intro acc u hnd h f v hmem hexcl hvn hfalsy
    simp only [List.foldlM_cons] at h
    cases hm : mergeField e acc x with
    | error m => rw [hm] at h; cases h
    | ok acc' =>
      rw [hm] at h
      rcases List.mem_cons.mp hmem with heq | hmem'
      · have hx1 : x.1 = f := by rw [← heq]
        have hx2 : x.2 = v := by rw [← heq]
        have hdec : mergeDecision e x.1 x.2 = .ok true := by
          unfold mergeDecision
          rw [hx1, hx2, if_neg hexcl, if_neg hvn]
          simp only [hfalsy, if_true]
        have hacc' : acc' f = some v := by
          unfold mergeField at hm
          rw [hdec] at hm
          cases hm
          simp [updSet, hx1, hx2]
        have hnot : f ∉ rest.map Prod.fst := by
          rw [← hx1]
          exact (List.nodup_cons.mp (by simpa using hnd)).1
        exact (merge_foldlM_not_mem e rest acc' u h f hnot).trans hacc'
      · exact ih acc' u (List.nodup_cons.mp (by simpa using hnd)).2 h f v hmem'
          hexcl hvn hfalsy

/-- **C3**: the update map of `_merge_member_data` never contains `id`,
`created_at` or `updated_at`; every update of a field whose existing value
is truthy satisfies one of the three override rules (strictly more recent
date for `collected_date` fields, strictly greater number for `confidence`
fields, strictly longer string representation otherwise); and a field whose
existing value is falsy unconditionally adopts the incoming non-`None`
value. -/
theorem c3_merge_monotonicity (e : String → Option PVal)
    (inc : List (String × PVal)) (hnd : (inc.map Prod.fst).Nodup)
    (u : String → Option PVal) (h : merge_member_data e inc = .ok u) :
    (u "id" = none ∧ u "created_at" = none ∧ u "updated_at" = none) ∧
    (∀ f v, u f = some v → ((e f).getD .pnone).falsy = false →
       (f, v) ∈ inc ∧
       ((strContains f "collected_date" = true ∧ v.isDate = true ∧
           pyDateGT v ((e f).getD .pnone) = .ok true) ∨
        (strContains f "collected_date" = false ∧
           strContains f "confidence" = true ∧
           ∃ a b, pyFloat v = .ok a ∧ pyFloat ((e f).getD .pnone) = .ok b ∧ b < a) ∨
        (strContains f "collected_date" = false ∧
           strContains f "confidence" = false ∧
           (PVal.strRepr ((e f).getD .pnone)).length < (PVal.strRepr v).length))) ∧
    (∀ f v, (f, v) ∈ inc → f ∉ excludedMergeFields → v ≠ .pnone →
       ((e f).getD .pnone).falsy = true → u f = some v) := by
  refine ⟨⟨?_, ?_, ?_⟩, ?_, ?_⟩
  · rcases merge_foldlM_char e inc _ u h "id" with h1 | ⟨v, _, _, hdec⟩
    · exact h1
    · exact absurd hdec (mergeDecision_excluded (by simp [excludedMergeFields]))
  · rcases merge_foldlM_char e inc _ u h "created_at" with h1 | ⟨v, _, _, hdec⟩
    · exact h1
    · exact absurd hdec (mergeDecision_excluded (by simp [excludedMergeFields]))
  · rcases merge_foldlM_char e inc _ u h "updated_at" with h1 | ⟨v, _, _, hdec⟩
    · exact h1
    · exact absurd hdec (mergeDecision_excluded (by simp [excludedMergeFields]))
  · intro f v hv hev
    rcases merge_foldlM_char e inc _ u h f with h1 | ⟨v', hv', hmem, hdec⟩
    · rw [h1] at hv
      cases hv
    · have hvv : v' = v := by
        rw [hv'] at hv
        exact (Option.some_inj.mp hv)
      subst hvv
      exact ⟨hmem, mergeDecision_true_nonfalsy hdec hev⟩
  · exact merge_foldlM_adopt e inc _ u hnd h

/-- Witness for C3 at a concrete merge: incoming `full_name` over an empty
existing record is adopted, and `id` is absent from the update map. -/
theorem c3_witness :
    (fun g => if g = "full_name" then some (PVal.pstr "Juan") else none) "id"
        = none ∧
      (fun g => if g = "full_name" then some (PVal.pstr "Juan") else none)
          "full_name" = some (.pstr "Juan") := by
  have h := c3_merge_monotonicity (fun _ => none)
    [("full_name", .pstr "Juan")] (by simp)
    (fun g => if g = "full_name" then some (PVal.pstr "Juan") else none) rfl
  exact ⟨h.1.1, h.2.2 "full_name" (.pstr "Juan") (by simp) (by decide)
    (by decide) (by decide)⟩

/-! ## `TextProcessor.calculate_name_similarity` (`text_processor.py` lines 156–172)

`calculate_name_similarity` normalizes both names
(`TextProcessor.normalize_name`, lines 22–40) and returns the maximum of
`fuzz.ratio` and `fuzz.token_sort_ratio` divided by 100.  The `fuzzywuzzy`
similarity backend is external to the repository; it is modelled from the
spec as the standard normalized indel/Levenshtein similarity
(`(lensum - distance) / lensum`, substitution cost 2, scaled to an
integer percentage), with `token_sort_ratio` sorting the
whitespace-separated tokens of both preprocessed inputs first. -/

/-- Weighted edit distance with insertion/deletion cost 1 and substitution
cost 2 (the metric underlying the library's `ratio`). -/
def lev : List Char → List Char → Nat
  | [], bs => bs.length
  | a :: as, [] => (a :: as).length
  | a :: as, b :: bs =>
    min ((if a = b then 0 else 2) + lev as bs)
      (min (1 + lev as (b :: bs)) (1 + lev (a :: as) bs))
termination_by as bs => as.length + bs.length
decreasing_by all_goals simp_arith

theorem lev_nil_right (as : List Char) : lev as [] = as.length := by
  cases as <;> simp [lev]

theorem lev_comm (as bs : List Char) : lev as bs = lev bs as := by
  induction as generalizing bs with
  | nil => cases bs <;> simp [lev, lev_nil_right]
  | cons a as iha =>
    induction bs with
    | nil => simp [lev, lev_nil_right]
    | cons b bs ihb =>
      show lev (a :: as) (b :: bs) = lev (b :: bs) (a :: as)
      rw [lev, lev]
      rw [iha bs, iha (b :: bs), ihb]
      have hab : (if a = b then 0 else 2) = (if b = a then 0 else 2) := by
        by_cases h : a = b
        · rw [if_pos h, if_pos h.symm]
        · rw [if_neg h, if_neg (fun hba => h hba.symm)]
      rw [hab]
      omega

theorem lev_le_sum (as bs : List Char) : lev as bs ≤ as.length + bs.length := by
  induction as generalizing bs with
  | nil => simp [lev]
  | cons a as iha =>
    induction bs with
    | nil => simp [lev_nil_right]
    | cons b bs ihb =>
      rw [lev]
      have h1 := iha bs
      have h2 := iha (b :: bs)
      simp only [List.length_cons] at *
      omega

/-- Python 3 `round` to the nearest integer, ties to even. -/
def pyRound (q : ℚ) : ℤ :=
  if q - ⌊q⌋ < 1/2 then ⌊q⌋
  else if 1/2 < q - ⌊q⌋ then ⌊q⌋ + 1
  else if ⌊q⌋ % 2 = 0 then ⌊q⌋ else ⌊q⌋ + 1

theorem pyRound_nonneg {q : ℚ} (h : 0 ≤ q) : 0 ≤ pyRound q := by
  have hf : (0 : ℤ) ≤ ⌊q⌋ := Int.floor_nonneg.mpr h
  unfold pyRound
  split_ifs <;> omega

theorem pyRound_le {q : ℚ} {n : ℤ} (h : q ≤ n) : pyRound q ≤ n := by
  have hf : ⌊q⌋ ≤ n := by
    have := Int.floor_le_floor h
    simpa using this
  have hfl : (⌊q⌋ : ℚ) ≤ q := Int.floor_le q
  unfold pyRound
  split_ifs with h1 h2 h3
  · exact hf
  · have hlt : (⌊q⌋ : ℚ) + 1/2 < (n : ℚ) := by linarith
    have hlt2 : (⌊q⌋ : ℚ) < (n : ℚ) := by linarith
    have : ⌊q⌋ < n := by exact_mod_cast hlt2
    omega
  · exact hf
  · have heq : q - ⌊q⌋ = 1/2 := le_antisymm (not_lt.mp h2) (not_lt.mp h1)
    have hlt : (⌊q⌋ : ℚ) < (n : ℚ) := by linarith
    have : ⌊q⌋ < n := by exact_mod_cast hlt
    omega

/-- `fuzz.ratio`, scaled-integer normalized indel similarity; two empty
strings have similarity 100. -/
def fuzz_ratio (s1 s2 : String) : ℤ :=
  if s1.toList.length + s2.toList.length = 0 then 100
  else pyRound (100 *
    ((((s1.toList.length + s2.toList.length : ℕ) : ℚ) - lev s1.toList s2.toList) /
      ((s1.toList.length + s2.toList.length : ℕ) : ℚ)))

theorem fuzz_ratio_comm (s1 s2 : String) : fuzz_ratio s1 s2 = fuzz_ratio s2 s1 := by
  unfold fuzz_ratio
  rw [lev_comm, Nat.add_comm s1.toList.length s2.toList.length]

theorem fuzz_ratio_nonneg (s1 s2 : String) : 0 ≤ fuzz_ratio s1 s2 := by
  unfold fuzz_ratio
  split_ifs with h
  · norm_num
  · apply pyRound_nonneg
    have hl : (lev s1.toList s2.toList : ℚ) ≤
        ((s1.toList.length + s2.toList.length : ℕ) : ℚ) := by
      exact_mod_cast lev_le_sum s1.toList s2.toList
    have hpos : (0 : ℚ) < ((s1.toList.length + s2.toList.length : ℕ) : ℚ) := by
      exact_mod_cast Nat.pos_of_ne_zero h
    apply mul_nonneg (by norm_num)
    exact div_nonneg (by linarith) (le_of_lt hpos)

theorem fuzz_ratio_le_100 (s1 s2 : String) : fuzz_ratio s1 s2 ≤ 100 := by
  unfold fuzz_ratio
  split_ifs with h
  · norm_num
  · apply pyRound_le
    have hpos : (0 : ℚ) < ((s1.toList.length + s2.toList.length : ℕ) : ℚ) := by
      exact_mod_cast Nat.pos_of_ne_zero h
    have hlevnn : (0 : ℚ) ≤ (lev s1.toList s2.toList : ℚ) := by positivity
    have hdiv : (((s1.toList.length + s2.toList.length : ℕ) : ℚ) -
        lev s1.toList s2.toList) / ((s1.toList.length + s2.toList.length : ℕ) : ℚ) ≤ 1 := by
      rw [div_le_one hpos]
      linarith
    push_cast
    push_cast at hdiv
    nlinarith [hdiv]

/-- `fuzzywuzzy.utils.full_process`: replace every non-word character with
a space, lowercase, strip (ASCII model). -/
def full_process (s : String) : String :=
  pyStrip (pyLower (String.mk (s.toList.map fun c => if isPyWord c then c else ' ')))

/-- `fuzzywuzzy._process_and_sort`: sort the whitespace tokens of the
processed string and rejoin them. -/
def process_and_sort (s : String) : String :=
  pyStrip (String.intercalate " "
    ((pySplitWs (full_process s)).mergeSort (fun a b => a ≤ b)))

/-- `fuzz.token_sort_ratio`: `ratio` over the token-sorted forms. -/
def token_sort_ratio (s1 s2 : String) : ℤ :=
  fuzz_ratio (process_and_sort s1) (process_and_sort s2)

theorem token_sort_ratio_comm (s1 s2 : String) :
    token_sort_ratio s1 s2 = token_sort_ratio s2 s1 :=
  fuzz_ratio_comm _ _

/-- Honorific prefixes stripped by `normalize_name`. -/
def namePrefixes : List String :=
  ["dr", "dr.", "atty", "atty.", "eng", "eng.", "prof", "prof."]

/-- Suffixes stripped by `normalize_name`. -/
def nameSuffixes : List String :=
  ["jr", "jr.", "sr", "sr.", "ii", "iii", "iv", "md", "pe", "esq"]

/-- `TextProcessor.normalize_name`: collapse whitespace, lowercase, drop
prefix/suffix tokens, rejoin. -/
def normalize_name (name : String) : String :=
  if name = "" then ""
  else
    let collapsed := String.intercalate " " (pySplitWs (pyStrip name))
    let words := pySplitWs (pyLower collapsed)
    let cleaned := words.filter fun w => w ∉ namePrefixes ∧ w ∉ nameSuffixes
    pyLower (String.intercalate " " cleaned)

/-- `TextProcessor.calculate_name_similarity`: 0 for falsy inputs, else the
max of character-level and token-sorted similarity of the normalized
names, as a fraction of 1. -/
def calculate_name_similarity (name1 name2 : String) : ℚ :=
  if name1 = "" ∨ name2 = "" then 0
  else
    max ((fuzz_ratio (normalize_name name1) (normalize_name name2) : ℚ) / 100)
      ((token_sort_ratio (normalize_name name1) (normalize_name name2) : ℚ) / 100)

/-- **C5**: `calculate_name_similarity` is symmetric in its two arguments
and always returns a value in `[0, 1]`. -/
theorem c5_name_similarity_symmetric_and_bounded (a b : String) :
    calculate_name_similarity a b = calculate_name_similarity b a ∧
      0 ≤ calculate_name_similarity a b ∧ calculate_name_similarity a b ≤ 1 := by
  refine ⟨?_, ?_, ?_⟩
  · unfold calculate_name_similarity
    by_cases h : a = "" ∨ b = ""
    · rw [if_pos h, if_pos (Or.symm h)]
    · rw [if_neg h, if_neg (fun hc => h (Or.symm hc))]
      rw [fuzz_ratio_comm, token_sort_ratio_comm]
  · unfold calculate_name_similarity
    split_ifs with h
    · exact le_refl 0
    · apply le_max_of_le_left
      apply div_nonneg _ (by norm_num)
      exact_mod_cast fuzz_ratio_nonneg _ _
  · unfold calculate_name_similarity
    split_ifs with h
    · norm_num
    · apply max_le
      · rw [div_le_one (by norm_num)]
        exact_mod_cast fuzz_ratio_le_100 _ _
      · rw [div_le_one (by norm_num)]
        exact_mod_cast fuzz_ratio_le_100 _ _

/-! ## `ProfessionInferencer.infer_profession_info` (`ai_inference.py` lines 26–99)

The inferencer collects text sources (email-domain analysis, company name,
job title, office address), scores each profession category of
`PROFESSION_KEYWORDS` (`config.py` lines 83–121) by weighted keyword hits,
aggregates per category by a weighted average, and accepts the best
category only when its confidence reaches 0.5. -/

/-- `config.PROFESSION_KEYWORDS`, in dict insertion order. -/
def PROFESSION_KEYWORDS : List (String × List String) :=
  [("Legal", ["lawyer", "attorney", "counsel", "advocate", "legal", "law", "esq",
     "litigation", "corporate law", "family law", "criminal law",
     "real estate law", "tax law", "labor law"]),
   ("Medical", ["doctor", "physician", "md", "medical", "clinic", "hospital",
     "surgeon", "cardiologist", "pediatrician", "neurologist",
     "dentist", "nurse", "healthcare", "medicine"]),
   ("Business", ["business", "consultant", "manager", "executive", "ceo", "cfo",
     "entrepreneur", "finance", "accounting", "cpa", "marketing",
     "sales", "operations", "strategy"]),
   ("Engineering", ["engineer", "engineering", "pe", "civil", "electrical",
     "mechanical", "chemical", "software", "systems", "technical",
     "construction", "project manager", "architect"]),
   ("IT/Technology", ["programmer", "developer", "software", "it", "technology",
     "tech", "computer", "systems", "network", "database", "web", "mobile",
     "cybersecurity", "data scientist"]),
   ("Education", ["teacher", "professor", "educator", "principal", "dean",
     "academic", "research", "university", "school", "training"]),
   ("Government", ["government", "civil service", "public service", "bureau",
     "department", "ministry", "agency", "municipal", "federal"]),
   ("Real Estate", ["real estate", "broker", "realtor", "property", "development",
     "construction", "housing", "commercial", "residential"])]

/-- `config.COMPANY_DOMAINS`: known email domains, `none` marking generic
providers. -/
def COMPANY_DOMAINS : List (String × Option String) :=
  [("petron.com", some "Petron Corporation"),
   ("chevrontexaco.com", some "Chevron Texaco"),
   ("ccbpi.com", some "Coca-Cola Beverages Philippines"),
   ("firstgas.com.ph", some "First Gas Holdings"),
   ("sun.com.ph", some "Sun Cellular"),
   ("mozcom.com", some "Mozcom"),
   ("pilnet.com", some "Philippine Network Foundation"),
   ("yahoo.com", none), ("gmail.com", none), ("hotmail.com", none),
   ("edsamail.com.ph", none)]

/-- The keywords whose presence multiplies a source's weight by 1.5. -/
def highConfidenceKeywords : List String :=
  ["doctor", "physician", "lawyer", "attorney", "engineer",
   "professor", "teacher", "manager", "director", "ceo"]

/-- `ProfessionInferencer._get_source_weight` (lines 182–202). -/
def get_source_weight (source_type keyword : String) : ℚ :=
  (if pyLower keyword ∈ highConfidenceKeywords then (3 : ℚ)/2 else 1) *
    (if source_type = "job_title" then 1
     else if source_type = "company_name" then 4/5
     else if source_type = "email_domain" then 3/5
     else if source_type = "office_address" then 2/5
     else 1/2)

/-- Domain-structure classification inside `_analyze_email_domain`
(lines 114–140). -/
def analyzeDomainStructure (domain : String) : Option String :=
  if "edu" ∈ pySplitOn domain "." then some "educational institution"
  else if "gov" ∈ pySplitOn domain "." then some "government agency"
  else if ["hospital", "medical", "clinic", "health"].any
      (fun ind => strContains domain ind) then some "medical institution"
  else if ["law", "legal", "attorney"].any
      (fun ind => strContains domain ind) then some "law firm"
  else if ["corp", "inc", "company", "consulting", "group"].any
      (fun ind => strContains domain ind) then some "business corporation"
  else none

/-- `ProfessionInferencer._analyze_email_domain` (lines 101–140): the known
company-domain table first, then the structural classification. -/
def analyze_email_domain (email : String) : Option String :=
  if strContains email "@" = false then none
  else
    match (pySplitOn email "@").get? 1 with
    | none => none
    | some d0 =>
      match List.lookup (pyLower d0) COMPANY_DOMAINS with
      | some (some company) => some company
      | _ => analyzeDomainStructure (pyLower d0)

/-- The specialization vocabulary of `_extract_specializations`
(lines 204–242), concatenated in source order. -/
def allSpecializations : List String :=
  ["cardiology", "cardiologist", "pediatrics", "pediatrician",
   "neurology", "neurologist", "surgery", "surgeon",
   "dermatology", "dermatologist", "ophthalmology", "ophthalmologist",
   "psychiatry", "psychiatrist", "radiology", "radiologist",
   "family law", "corporate law", "criminal law", "tax law",
   "labor law", "real estate law", "intellectual property",
   "litigation", "corporate counsel",
   "civil engineering", "electrical engineering", "mechanical engineering",
   "chemical engineering", "software engineering", "systems engineering",
   "construction", "architecture",
   "accounting", "finance", "marketing", "human resources",
   "operations", "consulting", "strategy", "business development"]

/-- First-occurrence deduplication, modelling Python's `list(set(...))`
(whose ordering is unspecified; nothing proved here depends on it). -/
def dedupFirst (l : List String) : List String :=
  l.foldl (fun acc x => if x ∈ acc then acc else acc ++ [x]) []

/-- `ProfessionInferencer._extract_specializations`. -/
def extract_specializations (text : String) : List String :=
  dedupFirst (allSpecializations.filter (fun sp => strContains text sp))

/-- The gazetteer of `_extract_location_hints` (lines 244–260). -/
def phLocations : List String :=
  ["makati", "manila", "quezon city", "pasig", "taguig", "mandaluyong",
   "pasay", "paranaque", "las pinas", "muntinlupa", "marikina",
   "cebu", "davao", "iloilo", "bacolod", "cagayan de oro",
   "ortigas", "bgc", "alabang", "eastwood", "rockwell"]

/-- Python `str.title()` (ASCII model): uppercase every letter that follows
a non-letter, lowercase the rest. -/
def pyTitleAux : Bool → List Char → List Char
  | _, [] => []
  | prevAlpha, c :: rest =>
    (if isPyAlpha c then (if prevAlpha then pyLowerChar c else pyUpperChar c) else c)
      :: pyTitleAux (isPyAlpha c) rest

/-- Python `str.title()`. -/
def pyTitle (s : String) : String :=
  String.mk (pyTitleAux false s.toList)

/-- `ProfessionInferencer._extract_location_hints`. -/
def extract_location_hints (text : String) : List String :=
  dedupFirst ((phLocations.filter (fun loc => strContains text loc)).map pyTitle)

/-- Result of `_analyze_text_for_profession` for one source. -/
structure AnalysisResult where
  professionScores : List (String × ℚ)
  specializations : List String
  locations : List String
deriving Repr

/-- `ProfessionInferencer._analyze_text_for_profession` (lines 142–180):
per-category weighted keyword-hit score, normalized by the category's
maximum possible score and clamped to 1; categories with zero score are
omitted. -/
def analyze_text_for_profession (text source_type : String) : AnalysisResult :=
  if text = "" then ⟨[], [], []⟩
  else
    ⟨PROFESSION_KEYWORDS.filterMap (fun pk =>
        if ((pk.2.filter (fun kw => strContains (pyLower text) (pyLower kw))).foldl
              (fun acc kw => acc + get_source_weight source_type kw) 0) > 0 then
          some (pk.1,
            min (((pk.2.filter (fun kw => strContains (pyLower text) (pyLower kw))).foldl
                (fun acc kw => acc + get_source_weight source_type kw) 0) /
              (pk.2.length * get_source_weight source_type "")) 1)
        else none),
     extract_specializations (pyLower text),
     extract_location_hints (pyLower text)⟩

/-- The member fields `infer_profession_info` reads (absent = `""`,
matching the source's `member_data.get(..., '')`). -/
structure InferInput where
  primary_email : String := ""
  current_company : String := ""
  current_profession : String := ""
  office_address_full : String := ""
deriving Repr

/-- The `(source_type, text)` list assembled by `infer_profession_info`
lines 31–53, in source order. -/
def textSources (md : InferInput) : List (String × String) :=
  (if md.primary_email ≠ "" then
      match analyze_email_domain md.primary_email with
      | some info => if info ≠ "" then [("email_domain", info)] else []
      | none => []
    else []) ++
  (if md.current_company ≠ "" then [("company_name", md.current_company)] else []) ++
  (if md.current_profession ≠ "" then [("job_title", md.current_profession)] else []) ++
  (if md.office_address_full ≠ "" then [("office_address", md.office_address_full)]
    else [])

/-- Append an entry to an insertion-ordered dict of score lists
(`profession_scores[profession].append((score, source_type))`). -/
def dictAppend (acc : List (String × List (ℚ × String))) (prof : String)
    (entry : ℚ × String) : List (String × List (ℚ × String)) :=
  match acc with
  | [] => [(prof, [entry])]
  | (p, l) :: rest =>
    if p = prof then (p, l ++ [entry]) :: rest
    else (p, l) :: dictAppend rest prof entry

/-- The aggregated `profession_scores` dict of `infer_profession_info`
lines 56–67. -/
def professionScoresAgg (md : InferInput) : List (String × List (ℚ × String)) :=
  (textSources md).foldl
    (fun acc st =>
      ((analyze_text_for_profession st.2 st.1).professionScores).foldl
        (fun acc2 ps => dictAppend acc2 ps.1 (ps.2, st.1)) acc)
    []

/-- The concatenated `specialization_hints`. -/
def specializationHints (md : InferInput) : List String :=
  (textSources md).foldl
    (fun acc st => acc ++ (analyze_text_for_profession st.2 st.1).specializations) []

/-- The concatenated `location_hints`. -/
def locationHints (md : InferInput) : List String :=
  (textSources md).foldl
    (fun acc st => acc ++ (analyze_text_for_profession st.2 st.1).locations) []

/-- `ProfessionInferencer._determine_best_profession` (lines 262–293):
weighted average per category, then the first category attaining the
maximum (Python `max` keeps the first key on ties). -/
def determine_best_profession (ps : List (String × List (ℚ × String))) :
    Option String × ℚ :=
  match ps.filterMap (fun pe =>
      if pe.2 = [] then none
      else if (pe.2.foldl (fun a e => a + get_source_weight e.2 "") 0) > 0 then
        some (pe.1,
          (pe.2.foldl (fun a e => a + e.1 * get_source_weight e.2 "") 0) /
            (pe.2.foldl (fun a e => a + get_source_weight e.2 "") 0))
      else none) with
  | [] => (none, 0)
  | f :: rest =>
    (some (rest.foldl (fun b x => if x.2 > b.2 then x else b) f).1,
     (rest.foldl (fun b x => if x.2 > b.2 then x else b) f).2)

/-- `ProfessionInferencer._determine_specialization` (lines 295–323). -/
def determine_specialization (hints : List String) (profession : Option String) :
    Option String :=
  if hints = [] then none
  else
    match
      (match profession with
       | some "Medical" => hints.filter (fun sp =>
           ["cardio", "pediatr", "neuro", "surg", "dermat", "ophthal", "psych",
            "radio"].any (fun kw => strContains (pyLower sp) kw))
       | some "Legal" => hints.filter (fun sp =>
           ["law", "legal", "litigation", "counsel"].any
             (fun kw => strContains (pyLower sp) kw))
       | some "Engineering" => hints.filter (fun sp =>
           ["engineering", "engineer", "construction", "architect"].any
             (fun kw => strContains (pyLower sp) kw))
       | _ => []) with
    | r :: rest =>
      some (rest.foldl (fun b x => if x.length > b.length then x else b) r)
    | [] => hints.head?

/-- `ProfessionInferencer._determine_work_location` (lines 325–337). -/
def determine_work_location (hints : List String) (md : InferInput) :
    Option String :=
  if hints = [] then none
  else
    match hints.find?
        (fun loc => strContains (pyLower md.office_address_full) (pyLower loc)) with
    | some loc => some loc
    | none => hints.head?

/-- The result dict of `infer_profession_info` (absent keys = `none`). -/
structure InferenceResult where
  inferred_profession : Option String := none
  inferred_profession_confidence : Option ℚ := none
  inferred_profession_source : Option String := none
  inferred_service_category : Option String := none
  inferred_service_category_confidence : Option ℚ := none
  inferred_specialization : Option String := none
  inferred_specialization_confidence : Option ℚ := none
  inferred_work_location : Option String := none
  inferred_work_location_confidence : Option ℚ := none
deriving DecidableEq, Repr

/-- The acceptance gate of lines 76–83:
`if best_profession and best_confidence >= 0.5`. -/
def inferGate (md : InferInput) : Bool :=
  match (determine_best_profession (professionScoresAgg md)).1 with
  | some p => p ≠ "" ∧ (1 : ℚ)/2 ≤ (determine_best_profession (professionScoresAgg md)).2
  | none => false

/-- The profession part of the inference result (lines 74–83). -/
def inferBase (md : InferInput) : InferenceResult :=
  if inferGate md then
    { inferred_profession := (determine_best_profession (professionScoresAgg md)).1
      inferred_profession_confidence :=
        some (determine_best_profession (professionScoresAgg md)).2
      inferred_profession_source := some "ai_analysis"
      inferred_service_category := (determine_best_profession (professionScoresAgg md)).1
      inferred_service_category_confidence :=
        some (determine_best_profession (professionScoresAgg md)).2 }
  else {}

/-- The specialization part added by lines 86–90. -/
def inferWithSpec (md : InferInput) : InferenceResult :=
  if specializationHints md ≠ [] then
    match determine_specialization (specializationHints md)
        (determine_best_profession (professionScoresAgg md)).1 with
    | some spec =>
      if spec ≠ "" then
        { inferBase md with
            inferred_specialization := some spec
            inferred_specialization_confidence := some (7/10) }
      else inferBase md
    | none => inferBase md
  else inferBase md

/-- `ProfessionInferencer.infer_profession_info`: profession gate, then
specialization, then work location (lines 26–99). -/
def infer_profession_info (md : InferInput) : InferenceResult :=
  if locationHints md ≠ [] then
    match determine_work_location (locationHints md) md with
    | some loc =>
      if loc ≠ "" then
        { inferWithSpec md with
            inferred_work_location := some loc
            inferred_work_location_confidence := some (4/5) }
      else inferWithSpec md
    | none => inferWithSpec md
  else inferWithSpec md

theorem inferWithSpec_eq_base (md : InferInput) :
    (inferWithSpec md).inferred_profession = (inferBase md).inferred_profession ∧
      (inferWithSpec md).inferred_profession_confidence =
        (inferBase md).inferred_profession_confidence := by
  unfold inferWithSpec
  split
  · split
    · split
      · exact ⟨rfl, rfl⟩
      · exact ⟨rfl, rfl⟩
    · exact ⟨rfl, rfl⟩
  · exact ⟨rfl, rfl⟩

theorem infer_profession_eq_base (md : InferInput) :
    (infer_profession_info md).inferred_profession =
        (inferBase md).inferred_profession ∧
      (infer_profession_info md).inferred_profession_confidence =
        (inferBase md).inferred_profession_confidence := by
  unfold infer_profession_info
  split
  · split
    · split
      · exact inferWithSpec_eq_base md
      · exact inferWithSpec_eq_base md
    · exact inferWithSpec_eq_base md
  · exact inferWithSpec_eq_base md

/-- **C6**: `infer_profession_info` leaves `inferred_profession` unset
whenever the best aggregate category confidence is below 0.5, and whenever
it sets it the reported `inferred_profession_confidence` equals that best
confidence and is at least 0.5. -/
theorem c6_inference_confidence_floor (md : InferInput) :
    ((determine_best_profession (professionScoresAgg md)).2 < 1/2 →
       (infer_profession_info md).inferred_profession = none) ∧
    (∀ p, (infer_profession_info md).inferred_profession = some p →
       (infer_profession_info md).inferred_profession_confidence =
           some (determine_best_profession (professionScoresAgg md)).2 ∧
         1/2 ≤ (determine_best_profession (professionScoresAgg md)).2) := by
  obtain ⟨h1, h2⟩ := infer_profession_eq_base md
  rw [h1, h2]
  unfold inferBase
  constructor
  · intro hlt
    split
    · next hg =>
      unfold inferGate at hg
      split at hg
      · next hp =>
        have := of_decide_eq_true hg
        exact absurd this.2 (not_le.mpr hlt)
      · cases hg
    · rfl
  · intro p hp
    revert hp
    split
    · next hg =>
      intro hp
      unfold inferGate at hg
      split at hg
      · exact ⟨rfl, (of_decide_eq_true hg).2⟩
      · cases hg
    · intro hp
      cases hp

/-- Witness for C6: on an entirely empty member record the aggregate
confidence is 0 and no profession is inferred. -/
theorem c6_witness :
    (infer_profession_info {}).inferred_profession = none :=
  (c6_inference_confidence_floor {}).1 (by
    have h : determine_best_profession (professionScoresAgg {}) = (none, 0) := rfl
    rw [h]
    norm_num)

/-! ## `QueryProcessor._detect_query_intent` (`query_processor.py` lines 50–144)

Intent detection lowercases the query and tries the pattern families in
the fixed order location, batch, professional-service, interest,
demographic, falling back to general-directory.  Every pattern of those
families is a sequence of literals, ordered alternations of literals
(optional groups are alternations ending in the empty string, and `x?` on
a final letter expands to the two alternatives in greedy order), and one
of three capture shapes, each final in its pattern: greedy `(.+)`, lazy
`(.+?)(?:\s|$)`, and `(\w+[-\s]?\w*)`.  The token matcher below implements
exactly that fragment with the `re` engine's leftmost-match and
backtracking order. -/

/-- One token of an intent pattern. -/
inductive QTok where
  | lit (s : String)
  | alt (ss : List String)
  | capGreedy
  | capLazySpaceEnd
  | capWordSeq
deriving Repr

/-- Match a token sequence at the head of `cs`.  `some cap` is a match
with `cap` the value of the single capture group, if any.  Alternatives
are tried left to right; the captures are final in every source pattern
but are nevertheless matched with full backtracking into the rest of the
sequence (greedy `(.+)` longest first, lazy `(.+?)` shortest first). -/
def matchToks : List QTok → List Char → Option (Option String)
  | [], _ => some none
  | .lit s :: rest, cs =>
    if s.toList.isPrefixOf cs then matchToks rest (cs.drop s.toList.length)
    else none
  | .alt ss :: rest, cs =>
    ss.findSome? fun s =>
      if s.toList.isPrefixOf cs then matchToks rest (cs.drop s.toList.length)
      else none
  | .capGreedy :: rest, cs =>
    ((List.range (cs.takeWhile (· ≠ '\n')).length).reverse.map (· + 1)).findSome?
      fun n =>
        match matchToks rest (cs.drop n) with
        | some _ => some (some (String.mk (cs.take n)))
        | none => none
  | .capLazySpaceEnd :: rest, cs =>
    ((List.range cs.length).map (· + 1)).findSome? fun n =>
      if (cs.take n).all (· ≠ '\n') then
        match cs.drop n with
        | [] =>
          match matchToks rest [] with
          | some _ => some (some (String.mk (cs.take n)))
          | none => none
        | c :: cs2 =>
          if isPySpace c then
            match matchToks rest cs2 with
            | some _ => some (some (String.mk (cs.take n)))
            | none => none
          else none
      else none
  | .capWordSeq :: rest, cs =>
    if (cs.takeWhile isPyWord).isEmpty then none
    else
      match
        (match cs.drop (cs.takeWhile isPyWord).length with
         | c :: r => if c = '-' ∨ isPySpace c then ([c], r)
                     else ([], cs.drop (cs.takeWhile isPyWord).length)
         | [] => ([], cs.drop (cs.takeWhile isPyWord).length)) with
      | (sep, cs3) =>
        match matchToks rest (cs3.drop (cs3.takeWhile isPyWord).length) with
        | some _ =>
          some (some (String.mk (cs.takeWhile isPyWord ++ sep ++
            cs3.takeWhile isPyWord)))
        | none => none

/-- `re.search` of one token pattern: leftmost match wins. -/
def searchPattern (p : List QTok) (cs : List Char) : Option (Option String) :=
  searchAux (matchToks p) cs

/-- Try the patterns of one family in order, first match wins. -/
def familySearch (pats : List (List QTok)) (cs : List Char) :
    Option (Option String) :=
  pats.findSome? fun p => searchPattern p cs

/-- The `location_patterns` list (lines 55–61). -/
def locationPatterns : List (List QTok) :=
  [[.lit "who ", .alt ["lives", "live", "resides", "reside", "is"], .lit " ",
    .alt ["in", "at", "from", "near"], .lit " ", .capGreedy],
   [.alt ["show", "find", "list", "get"], .lit " ", .alt ["me ", "all ", ""],
    .alt ["people", "members", "everyone"], .lit " ",
    .alt ["in", "at", "from", "near"], .lit " ", .capGreedy],
   [.alt ["anyone", "somebody", "someone"], .lit " ",
    .alt ["in", "at", "from", "near"], .lit " ", .capGreedy],
   [.alt ["members", "member"], .lit " ", .alt ["in", "at", "from", "near"],
    .lit " ", .capGreedy],
   [.lit "from ", .capLazySpaceEnd]]

/-- The `batch_patterns` list (lines 73–77). -/
def batchPatterns : List (List QTok) :=
  [[.lit "batch ", .capWordSeq],
   [.lit "from ", .alt ["batch ", "the batch ", ""], .capWordSeq],
   [.alt ["show", "find", "list"], .lit " ", .alt ["me ", ""],
    .alt ["batch ", "the batch ", ""], .capWordSeq]]

/-- The `professional_patterns` list (lines 89–93). -/
def professionalPatterns : List (List QTok) :=
  [[.alt ["need", "looking for", "find me"], .lit " ", .alt ["a ", "an ", ""],
    .alt ["lawyer", "doctor", "engineer", "accountant", "consultant"]],
   [.alt ["lawyer", "doctor", "engineer", "accountant", "consultant"]],
   [.alt ["legal", "medical", "engineering", "accounting", "consulting"],
    .lit " ", .alt ["help", "services", "advice"]]]

/-- The `interest_patterns` list (lines 103–111). -/
def interestPatterns : List (List QTok) :=
  [[.alt ["who", "anyone"], .lit " ",
    .alt ["likes", "like", "enjoys", "enjoy", "plays", "play"], .lit " ",
    .capGreedy],
   [.alt ["find", "show"], .lit " ", .alt ["me ", ""],
    .alt ["people", "members"], .lit " ", .alt ["who ", ""],
    .alt ["like", "enjoy", "play"], .lit " ", .capGreedy],
   [.alt ["who", "anyone"], .lit " ",
    .alt ["can help", "knows about", "has experience with"], .lit " ",
    .alt ["me ", ""], .alt ["with ", "buy ", "sell ", "find ", ""], .capGreedy],
   [.alt ["need", "want"], .lit " to ", .alt ["buy", "sell", "find", "get"],
    .lit " ", .capGreedy],
   [.alt ["interested in", "into"], .lit " ", .capGreedy],
   [.alt ["hobbies", "hobbie"], .lit " ", .alt ["include", "includ", "are", "ar"],
    .lit " ", .capGreedy],
   [.alt ["sports", "sport"], .lit " ", .capGreedy]]

/-- The `demographic_patterns` list (lines 126–131). -/
def demographicPatterns : List (List QTok) :=
  [[.lit "how many ", .alt ["people", "members"]],
   [.alt ["count", "total"], .lit " ", .alt ["of ", ""],
    .alt ["people", "members"]],
   [.lit "list ", .alt ["all", "everyone"]],
   [.alt ["show", "get"], .lit " ", .alt ["me ", ""],
    .alt ["all", "everyone", "everybody"]]]

/-- `re.sub(r'[?!.,;]+$', '', s)`: drop one maximal trailing punctuation run. -/
def stripTrailingPunct (s : String) : String :=
  String.mk ((s.toList.reverse.dropWhile
    (fun c => c ∈ ['?', '!', '.', ',', ';'])).reverse)

/-- The detected intent. -/
inductive QueryIntent where
  | location_based (loc : String)
  | batch_based (b : String)
  | professional_service
  | interest_based (i : String)
  | demographic
  | general_directory
deriving DecidableEq, Repr

/-- `QueryProcessor._detect_query_intent`: the families in fixed priority
order — location, batch, professional service, interest, demographic —
falling back to general directory. -/
def detect_query_intent (query : String) : QueryIntent :=
  match familySearch locationPatterns (pyLower query).toList with
  | some cap => .location_based (pyStrip (cap.getD ""))
  | none =>
    match familySearch batchPatterns (pyLower query).toList with
    | some cap => .batch_based (pyStrip (cap.getD ""))
    | none =>
      match familySearch professionalPatterns (pyLower query).toList with
      | some _ => .professional_service
      | none =>
        match familySearch interestPatterns (pyLower query).toList with
        | some cap =>
          .interest_based (stripTrailingPunct (pyStrip (cap.getD "")))
        | none =>
          match familySearch demographicPatterns (pyLower query).toList with
          | some _ => .demographic
          | none => .general_directory

/-- **C7**: intent detection evaluates the pattern families in the fixed
order location, batch, professional-service, interest, demographic,
general-directory, the first matching family winning; in particular
`"who lives in Makati"` is classified `location_based` with captured
location `"makati"`, never `general_directory`. -/
theorem c7_intent_priority :
    detect_query_intent "who lives in Makati" = .location_based "makati" ∧
    (∀ q cap, familySearch locationPatterns (pyLower q).toList = some cap →
       detect_query_intent q = .location_based (pyStrip (cap.getD ""))) ∧
    (∀ q cap, familySearch locationPatterns (pyLower q).toList = none →
       familySearch batchPatterns (pyLower q).toList = some cap →
       detect_query_intent q = .batch_based (pyStrip (cap.getD ""))) ∧
    (∀ q cap, familySearch locationPatterns (pyLower q).toList = none →
       familySearch batchPatterns (pyLower q).toList = none →
       familySearch professionalPatterns (pyLower q).toList = some cap →
       detect_query_intent q = .professional_service) ∧
    (∀ q cap, familySearch locationPatterns (pyLower q).toList = none →
       familySearch batchPatterns (pyLower q).toList = none →
       familySearch professionalPatterns (pyLower q).toList = none →
       familySearch interestPatterns (pyLower q).toList = some cap →
       detect_query_intent q =
         .interest_based (stripTrailingPunct (pyStrip (cap.getD "")))) ∧
    (∀ q cap, familySearch locationPatterns (pyLower q).toList = none →
       familySearch batchPatterns (pyLower q).toList = none →
       familySearch professionalPatterns (pyLower q).toList = none →
       familySearch interestPatterns (pyLower q).toList = none →
       familySearch demographicPatterns (pyLower q).toList = some cap →
       detect_query_intent q = .demographic) ∧
    (∀ q, familySearch locationPatterns (pyLower q).toList = none →
       familySearch batchPatterns (pyLower q).toList = none →
       familySearch professionalPatterns (pyLower q).toList = none →
       familySearch interestPatterns (pyLower q).toList = none →
       familySearch demographicPatterns (pyLower q).toList = none →
       detect_query_intent q = .general_directory) := by
  refine ⟨by decide, ?_, ?_, ?_, ?_, ?_, ?_⟩
  · intro q cap h
    unfold detect_query_intent
    rw [h]
  · intro q cap h1 h2
    unfold detect_query_intent
    rw [h1, h2]
  · intro q cap h1 h2 h3
    unfold detect_query_intent
    rw [h1, h2, h3]
  · intro q cap h1 h2 h3 h4
    unfold detect_query_intent
    rw [h1, h2, h3, h4]
  · intro q cap h1 h2 h3 h4 h5
    unfold detect_query_intent
    rw [h1, h2, h3, h4, h5]
  · intro q h1 h2 h3 h4 h5
    unfold detect_query_intent
    rw [h1, h2, h3, h4, h5]

/-- Witness for C7's family-priority clauses at a concrete query. -/
theorem c7_witness :
    detect_query_intent "who lives in Makati" =
      .location_based (pyStrip ((some "makati").getD "")) :=
  c7_intent_priority.2.1 "who lives in Makati" (some "makati") (by decide)

/-! ## `DataProcessor._find_existing_member`, email step
(`data_processor.py` lines 465–473, `database.py` lines 145–222)

The exact-match step queries `search_members({'email': candidate_email})`,
whose SQL is `SELECT * FROM members WHERE is_duplicate = FALSE AND
(primary_email = ? OR secondary_email = ?) ORDER BY confidence_score DESC,
full_name LIMIT 100`, and returns `results[0]` when nonempty.  Note the
query does not filter on `is_active`, and matches `secondary_email` too. -/

/-- The columns of a `members` row read by the email search step. -/
structure SearchRow where
  id : Nat
  full_name : String
  confidence_score : ℚ
  is_duplicate : Bool
  is_active : Bool
  primary_email : Option String
  secondary_email : Option String
deriving DecidableEq, Repr

/-- The `WHERE` clause of `search_members` for an email-only query:
`is_duplicate = FALSE AND (primary_email = ? OR secondary_email = ?)`. -/
def emailFilter (e : String) (r : SearchRow) : Bool :=
  !r.is_duplicate && (r.primary_email == some e || r.secondary_email == some e)

/-- The `ORDER BY confidence_score DESC, full_name` ordering. -/
def searchLE (r1 r2 : SearchRow) : Prop :=
  r2.confidence_score < r1.confidence_score ∨
    (r1.confidence_score = r2.confidence_score ∧ r1.full_name ≤ r2.full_name)

instance searchLE.decidable : ∀ r1 r2, Decidable (searchLE r1 r2) := fun _ _ =>
  inferInstanceAs (Decidable (_ ∨ _))

/-- Boolean form of the search ordering, for `mergeSort`. -/
def searchLEb (r1 r2 : SearchRow) : Bool := decide (searchLE r1 r2)

theorem searchLE_refl (r : SearchRow) : searchLE r r := Or.inr ⟨rfl, le_refl _⟩

theorem searchLEb_trans (a b c : SearchRow) :
    searchLEb a b → searchLEb b c → searchLEb a c := by
  simp only [searchLEb, decide_eq_true_eq]
  rintro (h1 | ⟨h1e, h1n⟩) (h2 | ⟨h2e, h2n⟩)
  · exact Or.inl (h2.trans h1)
  · exact Or.inl (h2e ▸ h1)
  · exact Or.inl (h1e ▸ h2)
  · exact Or.inr ⟨h1e.trans h2e, h1n.trans h2n⟩

theorem searchLEb_total (a b : SearchRow) : searchLEb a b || searchLEb b a := by
  simp only [searchLEb, Bool.or_eq_true, decide_eq_true_eq]
  rcases lt_trichotomy a.confidence_score b.confidence_score with h | h | h
  · exact Or.inr (Or.inl h)
  · rcases le_total a.full_name b.full_name with hn | hn
    · exact Or.inl (Or.inr ⟨h, hn⟩)
    · exact Or.inr (Or.inr ⟨h.symm, hn⟩)
  · exact Or.inl (Or.inl h)

/-- `DatabaseManager.search_members` restricted to an email-only query:
filter, order, `LIMIT 100`. -/
def search_members_email (e : String) (store : List SearchRow) : List SearchRow :=
  (((store.filter (emailFilter e)).mergeSort searchLEb).take 100)

/-- The exact-email step of `_find_existing_member`: skipped when the
candidate email is falsy, otherwise `results[0]` of the search if any. -/
def find_existing_email_step (cand_email : Option String)
    (store : List SearchRow) : Option SearchRow :=
  match cand_email with
  | some e => if e = "" then none else (search_members_email e store).head?
  | none => none

theorem head?_take_100 {α : Type} (l : List α) : (l.take 100).head? = l.head? := by
  cases l <;> simp

/-- The spec-level match predicate of claim C2's amended form. -/
def emailMatchPred (e : String) (r : SearchRow) : Prop :=
  r.is_duplicate = false ∧ (r.primary_email = some e ∨ r.secondary_email = some e)

theorem emailFilter_iff (e : String) (r : SearchRow) :
    emailFilter e r = true ↔ emailMatchPred e r := by
  simp [emailFilter, emailMatchPred]

/-- The inactive row refuting C2: not a duplicate, `is_active = false`,
and carrying the candidate email only as `secondary_email`. -/
def c2Row : SearchRow :=
  ⟨1, "Juan Dela Cruz", 1, false, false, some "z@z.ph", some "a@b.ph"⟩

/-- A one-row store for the C2 counterexample. -/
def c2Store : List SearchRow := [c2Row]

/-- **C2 (counterexample)**: with the store holding only `c2Row`, the
email step returns a record for candidate email `"a@b.ph"`, yet no stored
record is active, and no stored record's `primary_email` equals the
candidate email — refuting both directions of the claimed
characterization (the `is_active` restriction and the
`primary_email`-only matching). -/
theorem c2_counterexample :
    find_existing_email_step (some "a@b.ph") c2Store = some c2Row ∧
      c2Store.all (fun r => !(r.is_active && r.primary_email == some "a@b.ph")) ∧
      c2Store.all (fun r => !(r.primary_email == some "a@b.ph")) := by
  refine ⟨?_, by decide, by decide⟩
  show (if ("a@b.ph" : String) = "" then none
    else (search_members_email "a@b.ph" c2Store).head?) = some c2Row
  rw [if_neg (by decide)]
  show (((c2Store.filter (emailFilter "a@b.ph")).mergeSort searchLEb).take 100).head?
    = some c2Row
  rw [show c2Store.filter (emailFilter "a@b.ph") = [c2Row] from rfl,
    List.mergeSort_singleton]
  rfl

/-- **C2 (amended)**: for a truthy candidate email, the email step returns
a record iff some stored, non-duplicate record (active or not) has
`primary_email` or `secondary_email` equal to the candidate's email, and
the returned record is such a match, first in the search ordering
(`confidence_score` descending, then `full_name` ascending). -/
theorem c2_find_existing_email_amended (e : String) (he : e ≠ "")
    (store : List SearchRow) :
    ((find_existing_email_step (some e) store).isSome ↔
        ∃ r ∈ store, emailMatchPred e r) ∧
    (∀ r, find_existing_email_step (some e) store = some r →
        r ∈ store ∧ emailMatchPred e r ∧
          ∀ r' ∈ store, emailMatchPred e r' → searchLE r r') := by
  have hstep : find_existing_email_step (some e) store =
      ((store.filter (emailFilter e)).mergeSort searchLEb).head? := by
    show (if e = "" then none else (search_members_email e store).head?) = _
    rw [if_neg he]
    exact head?_take_100 _
  constructor
  · rw [hstep]
    constructor
    · intro hsome
      obtain ⟨r, hr⟩ := Option.isSome_iff_exists.mp hsome
      have hmem : r ∈ (store.filter (emailFilter e)).mergeSort searchLEb :=
        List.mem_of_mem_head? (Option.mem_def.mpr hr)
      have hmem2 : r ∈ store.filter (emailFilter e) := List.mem_mergeSort.mp hmem
      obtain ⟨hin, hp⟩ := List.mem_filter.mp hmem2
      exact ⟨r, hin, (emailFilter_iff e r).mp hp⟩
    · rintro ⟨r, hin, hp⟩
      have hmem : r ∈ (store.filter (emailFilter e)).mergeSort searchLEb :=
        List.mem_mergeSort.mpr
          (List.mem_filter.mpr ⟨hin, (emailFilter_iff e r).mpr hp⟩)
      cases hl : (store.filter (emailFilter e)).mergeSort searchLEb with
      | nil => rw [hl] at hmem; cases hmem
      | cons a tl => simp
  · intro r hr
    rw [hstep] at hr
    have hmem : r ∈ (store.filter (emailFilter e)).mergeSort searchLEb :=
      List.mem_of_mem_head? (Option.mem_def.mpr hr)
    have hmem2 : r ∈ store.filter (emailFilter e) := List.mem_mergeSort.mp hmem
    obtain ⟨hin, hp⟩ := List.mem_filter.mp hmem2
    refine ⟨hin, (emailFilter_iff e r).mp hp, ?_⟩
    intro r' hin' hp'
    have hmem' : r' ∈ (store.filter (emailFilter e)).mergeSort searchLEb :=
      List.mem_mergeSort.mpr
        (List.mem_filter.mpr ⟨hin', (emailFilter_iff e r').mpr hp'⟩)
    have hsorted : ((store.filter (emailFilter e)).mergeSort searchLEb).Pairwise
        (fun a b => searchLEb a b) :=
      List.sorted_mergeSort searchLEb_trans searchLEb_total _
    cases hl : (store.filter (emailFilter e)).mergeSort searchLEb with
    | nil => rw [hl] at hmem; cases hmem
    | cons a tl =>
      rw [hl] at hr hmem' hsorted
      have hra : a = r := by
        simpa using hr
      subst hra
      rcases List.mem_cons.mp hmem' with heq | htl
      · exact heq ▸ searchLE_refl r'
      · have := (List.pairwise_cons.mp hsorted).1 r' htl
        exact of_decide_eq_true this

/-- Witness for the amended C2 theorem on the concrete one-row store. -/
theorem c2_witness :
    (find_existing_email_step (some "a@b.ph") c2Store).isSome = true :=
  ((c2_find_existing_email_amended "a@b.ph" (by decide) c2Store).1.mpr
    ⟨c2Row, by simp [c2Store], ⟨rfl, Or.inr rfl⟩⟩)

/-! ## `QueryProcessor._calculate_professional_relevance_score` and
`_rank_professional_results` (`query_processor.py` lines 770–864)

The relevance score sums five components — 0.3 × stored confidence, a
profession match of up to 0.4, a location match of up to 0.25, a data
freshness bonus of up to 0.05, and contact-availability bonuses of 0.05
each — capped at 1.0.  The ranking sorts descending by this score with a
stable sort.  `estimated_data_vintage` is modelled as the parsed vintage
date (a day ordinal); the source's string-to-date parsing and its
skip-on-error branch sit before the day arithmetic and are not separately
modelled.  `date.today()` is the explicit `today` parameter. -/

/-- The member fields the professional relevance score reads.  An absent
key and a stored SQL `NULL` are both `none` (the source applies
`member.get(...)` with `or ''` / default fallbacks). -/
structure QMember where
  confidence_score : Option ℚ
  current_profession_normalized : Option String
  inferred_profession : Option String
  office_address_city_normalized : Option String
  home_address_city_normalized : Option String
  estimated_data_vintage : Option ℤ
  primary_email : Option String
  mobile_phone : Option String
deriving DecidableEq, Repr

/-- The parsed query components consumed by the scorer. -/
structure QueryComponents where
  profession : Option String := none
  location : Option String := none
deriving DecidableEq, Repr

/-- `member.get('confidence_score', 0.5) * 0.3`. -/
def confComponent (m : QMember) : ℚ :=
  m.confidence_score.getD (1/2) * (3/10)

/-- The profession-match part (lines 797–812): exact substring on the
explicit profession (0.4), else on the inferred profession (0.3), else
fuzzy similarity × 0.2; 0 when the query has no profession. -/
def professionComponent (qc : QueryComponents) (m : QMember) : ℚ :=
  if pyLower (qc.profession.getD "") = "" then 0
  else if strContains (pyLower (m.current_profession_normalized.getD ""))
      (pyLower (qc.profession.getD "")) then 2/5
  else if strContains (pyLower (m.inferred_profession.getD ""))
      (pyLower (qc.profession.getD "")) then 3/10
  else ((max (fuzz_ratio (pyLower (qc.profession.getD ""))
          (pyLower (m.current_profession_normalized.getD "")))
        (fuzz_ratio (pyLower (qc.profession.getD ""))
          (pyLower (m.inferred_profession.getD "")))) : ℚ) / 100 * (1/5)

/-- The location-match part (lines 815–830): work-location substring match
(0.25) outweighs home-location substring match (0.15); else fuzzy
similarity × 0.1; 0 when the query has no location. -/
def locationComponent (qc : QueryComponents) (m : QMember) : ℚ :=
  if pyLower (qc.location.getD "") = "" then 0
  else if strContains (pyLower (m.office_address_city_normalized.getD ""))
      (pyLower (qc.location.getD "")) then 1/4
  else if strContains (pyLower (m.home_address_city_normalized.getD ""))
      (pyLower (qc.location.getD "")) then 3/20
  else ((max (fuzz_ratio (pyLower (qc.location.getD ""))
          (pyLower (m.office_address_city_normalized.getD "")))
        (fuzz_ratio (pyLower (qc.location.getD ""))
          (pyLower (m.home_address_city_normalized.getD "")))) : ℚ) / 100 * (1/10)

/-- The data-freshness bonus (lines 832–856). -/
def freshnessComponent (today : ℤ) (m : QMember) : ℚ :=
  match m.estimated_data_vintage with
  | none => 0
  | some vd => if today - vd < 365 then 1/20
    else if today - vd < 1825 then 1/50 else 0

/-- The contact-availability bonus (lines 858–862), with Python truthiness
on the fields. -/
def contactComponent (m : QMember) : ℚ :=
  (if m.primary_email.getD "" ≠ "" then (1 : ℚ)/20 else 0) +
    (if m.mobile_phone.getD "" ≠ "" then (1 : ℚ)/20 else 0)

/-- `QueryProcessor._calculate_professional_relevance_score`: the five
components in source order, capped at 1.0. -/
def calculate_professional_relevance_score (today : ℤ) (qc : QueryComponents)
    (m : QMember) : ℚ :=
  min (confComponent m + professionComponent qc m + locationComponent qc m +
    freshnessComponent today m + contactComponent m) 1

/-- `QueryProcessor._rank_professional_results`: stable sort descending by
relevance score (Python `list.sort(key=..., reverse=True)`). -/
def rank_professional_results (today : ℤ) (qc : QueryComponents)
    (results : List QMember) : List QMember :=
  if results = [] then []
  else results.mergeSort fun a b =>
    decide (calculate_professional_relevance_score today qc b ≤
      calculate_professional_relevance_score today qc a)

theorem professionComponent_bounds (qc : QueryComponents) (m : QMember) :
    0 ≤ professionComponent qc m ∧ professionComponent qc m ≤ 2/5 := by
  unfold professionComponent
  split_ifs
  · norm_num
  · norm_num
  · norm_num
  · have h1 : (0 : ℚ) ≤ (fuzz_ratio (pyLower (qc.profession.getD ""))
        (pyLower (m.current_profession_normalized.getD "")) : ℚ) := by
      exact_mod_cast fuzz_ratio_nonneg _ _
    have h2 : (fuzz_ratio (pyLower (qc.profession.getD ""))
        (pyLower (m.current_profession_normalized.getD "")) : ℚ) ≤ 100 := by
      exact_mod_cast fuzz_ratio_le_100 _ _
    have h3 : (fuzz_ratio (pyLower (qc.profession.getD ""))
        (pyLower (m.inferred_profession.getD "")) : ℚ) ≤ 100 := by
      exact_mod_cast fuzz_ratio_le_100 _ _
    have hmaxnn : (0 : ℚ) ≤
        max (fuzz_ratio (pyLower (qc.profession.getD ""))
          (pyLower (m.current_profession_normalized.getD "")) : ℚ)
        (fuzz_ratio (pyLower (qc.profession.getD ""))
          (pyLower (m.inferred_profession.getD "")) : ℚ) := le_max_of_le_left h1
    have hmaxle : max (fuzz_ratio (pyLower (qc.profession.getD ""))
          (pyLower (m.current_profession_normalized.getD "")) : ℚ)
        (fuzz_ratio (pyLower (qc.profession.getD ""))
          (pyLower (m.inferred_profession.getD "")) : ℚ) ≤ 100 := max_le h2 h3
    constructor
    · exact mul_nonneg (div_nonneg hmaxnn (by norm_num)) (by norm_num)
    · linarith

theorem locationComponent_bounds (qc : QueryComponents) (m : QMember) :
    0 ≤ locationComponent qc m ∧ locationComponent qc m ≤ 1/4 := by
  unfold locationComponent
  split_ifs
  · norm_num
  · norm_num
  · norm_num
  · have h1 : (0 : ℚ) ≤ (fuzz_ratio (pyLower (qc.location.getD ""))
        (pyLower (m.office_address_city_normalized.getD "")) : ℚ) := by
      exact_mod_cast fuzz_ratio_nonneg _ _
    have h2 : (fuzz_ratio (pyLower (qc.location.getD ""))
        (pyLower (m.office_address_city_normalized.getD "")) : ℚ) ≤ 100 := by
      exact_mod_cast fuzz_ratio_le_100 _ _
    have h3 : (fuzz_ratio (pyLower (qc.location.getD ""))
        (pyLower (m.home_address_city_normalized.getD "")) : ℚ) ≤ 100 := by
      exact_mod_cast fuzz_ratio_le_100 _ _
    have hmaxnn : (0 : ℚ) ≤
        max (fuzz_ratio (pyLower (qc.location.getD ""))
          (pyLower (m.office_address_city_normalized.getD "")) : ℚ)
        (fuzz_ratio (pyLower (qc.location.getD ""))
          (pyLower (m.home_address_city_normalized.getD "")) : ℚ) :=
      le_max_of_le_left h1
    have hmaxle : max (fuzz_ratio (pyLower (qc.location.getD ""))
          (pyLower (m.office_address_city_normalized.getD "")) : ℚ)
        (fuzz_ratio (pyLower (qc.location.getD ""))
          (pyLower (m.home_address_city_normalized.getD "")) : ℚ) ≤ 100 :=
      max_le h2 h3
    constructor
    · exact mul_nonneg (div_nonneg hmaxnn (by norm_num)) (by norm_num)
    · linarith

theorem freshnessComponent_bounds (today : ℤ) (m : QMember) :
    0 ≤ freshnessComponent today m ∧ freshnessComponent today m ≤ 1/20 := by
  unfold freshnessComponent
  cases m.estimated_data_vintage with
  | none => norm_num
  | some vd =>
    dsimp only
    split_ifs <;> norm_num

theorem contactComponent_bounds (m : QMember) :
    0 ≤ contactComponent m ∧ contactComponent m ≤ 1/10 := by
  unfold contactComponent
  split_ifs <;> norm_num

/-- Head of the stable descending sort of a two-element list whose first
element under comparison scores strictly higher. -/
theorem rank_pair_head (today : ℤ) (qc : QueryComponents) (X Y : QMember)
    (hne : X ≠ Y)
    (hgt : calculate_professional_relevance_score today qc Y <
      calculate_professional_relevance_score today qc X)
    (l : List QMember) (hl : l = [X, Y] ∨ l = [Y, X]) :
    (rank_professional_results today qc l).head? = some X := by
  have hnil : l ≠ [] := by rcases hl with rfl | rfl <;> simp
  have hr : rank_professional_results today qc l = l.mergeSort fun a b =>
      decide (calculate_professional_relevance_score today qc b ≤
        calculate_professional_relevance_score today qc a) := by
    unfold rank_professional_results
    rw [if_neg hnil]
  have hperm : (rank_professional_results today qc l).Perm l := by
    rw [hr]
    exact List.mergeSort_perm _ _
  have hsorted : (rank_professional_results today qc l).Pairwise fun a b =>
      decide (calculate_professional_relevance_score today qc b ≤
        calculate_professional_relevance_score today qc a) := by
    rw [hr]
    exact List.sorted_mergeSort
      (fun a b c h1 h2 => by
        simp only [decide_eq_true_eq] at h1 h2 ⊢
        exact h2.trans h1)
      (fun a b => by
        simp only [Bool.or_eq_true, decide_eq_true_eq]
        exact le_total _ _) l
  have hlen : (rank_professional_results today qc l).length = 2 := by
    rw [hperm.length_eq]
    rcases hl with rfl | rfl <;> rfl
  match hres : rank_professional_results today qc l, hlen2 : hlen with
  | [x, y], _ => ?_
  case _ =>
    rw [hres] at hperm hsorted
    have hle : calculate_professional_relevance_score today qc y ≤
        calculate_professional_relevance_score today qc x := by
      have := (List.pairwise_cons.mp hsorted).1 y (by simp)
      exact of_decide_eq_true this
    have hxmem : x ∈ l := hperm.subset (by simp)
    have hXmem : X ∈ ([x, y] : List QMember) := hperm.mem_iff.mpr (by
      rcases hl with rfl | rfl <;> simp)
    have hx : x = X := by
      rcases hl with rfl | rfl
      · rcases (by simpa using hxmem : x = X ∨ x = Y) with hxx | hxy
        · exact hxx
        · exfalso
          rcases (by simpa using hXmem : X = x ∨ X = y) with hXx | hXy
          · exact hne (hXx.trans hxy)
          · subst hxy
            subst hXy
            exact absurd hle (not_le.mpr hgt)
      · rcases (by simpa using hxmem : x = Y ∨ x = X) with hxy | hxx
        · exfalso
          rcases (by simpa using hXmem : X = x ∨ X = y) with hXx | hXy
          · exact hne (hXx.trans hxy)
          · subst hxy
            subst hXy
            exact absurd hle (not_le.mpr hgt)
        · exact hxx
    rw [hx]
    rfl

/-- **C9**: for a professional-service query with a nonempty location, the
location component of the relevance score is 0.25 on a work-location
substring match, 0.15 on a home-location-only substring match, and a fuzzy
similarity scaled by 0.1 otherwise; the total score is capped at 1.0; and
of two members identical except that one's work location contains the
query location while the other matches in neither location, the former
scores strictly higher and is ranked first (whichever input order the
ranking receives). -/
theorem c9_location_ranking (today : ℤ) (qc : QueryComponents)
    (hq : pyLower (qc.location.getD "") ≠ "")
    (A : QMember) (x : Option String)
    (hconf0 : 0 ≤ A.confidence_score.getD (1/2))
    (hconf1 : A.confidence_score.getD (1/2) ≤ 1)
    (hwA : strContains (pyLower (A.office_address_city_normalized.getD ""))
      (pyLower (qc.location.getD "")) = true)
    (hwB : strContains (pyLower (x.getD ""))
      (pyLower (qc.location.getD "")) = false)
    (hhA : strContains (pyLower (A.home_address_city_normalized.getD ""))
      (pyLower (qc.location.getD "")) = false) :
    (∀ m, strContains (pyLower (m.office_address_city_normalized.getD ""))
        (pyLower (qc.location.getD "")) = true → locationComponent qc m = 1/4) ∧
    (∀ m, strContains (pyLower (m.office_address_city_normalized.getD ""))
        (pyLower (qc.location.getD "")) = false →
      strContains (pyLower (m.home_address_city_normalized.getD ""))
        (pyLower (qc.location.getD "")) = true → locationComponent qc m = 3/20) ∧
    (∀ m, strContains (pyLower (m.office_address_city_normalized.getD ""))
        (pyLower (qc.location.getD "")) = false →
      strContains (pyLower (m.home_address_city_normalized.getD ""))
        (pyLower (qc.location.getD "")) = false →
      locationComponent qc m =
        ((max (fuzz_ratio (pyLower (qc.location.getD ""))
            (pyLower (m.office_address_city_normalized.getD "")))
          (fuzz_ratio (pyLower (qc.location.getD ""))
            (pyLower (m.home_address_city_normalized.getD "")))) : ℚ) / 100 *
          (1/10)) ∧
    (∀ m, calculate_professional_relevance_score today qc m ≤ 1) ∧
    calculate_professional_relevance_score today qc
        { A with office_address_city_normalized := x } <
      calculate_professional_relevance_score today qc A ∧
    (rank_professional_results today qc
        [A, { A with office_address_city_normalized := x }]).head? = some A ∧
    (rank_professional_results today qc
        [{ A with office_address_city_normalized := x }, A]).head? = some A := by
  have hwork : ∀ m, strContains (pyLower (m.office_address_city_normalized.getD ""))
      (pyLower (qc.location.getD "")) = true → locationComponent qc m = 1/4 := by
    intro m hm
    unfold locationComponent
    rw [if_neg hq, if_pos hm]
  have hhome : ∀ m, strContains (pyLower (m.office_address_city_normalized.getD ""))
      (pyLower (qc.location.getD "")) = false →
      strContains (pyLower (m.home_address_city_normalized.getD ""))
        (pyLower (qc.location.getD "")) = true → locationComponent qc m = 3/20 := by
    intro m hm1 hm2
    unfold locationComponent
    rw [if_neg hq, if_neg (by simp [hm1]), if_pos hm2]
  have hfuzzy : ∀ m, strContains (pyLower (m.office_address_city_normalized.getD ""))
      (pyLower (qc.location.getD "")) = false →
      strContains (pyLower (m.home_address_city_normalized.getD ""))
        (pyLower (qc.location.getD "")) = false →
      locationComponent qc m =
        ((max (fuzz_ratio (pyLower (qc.location.getD ""))
            (pyLower (m.office_address_city_normalized.getD "")))
          (fuzz_ratio (pyLower (qc.location.getD ""))
            (pyLower (m.home_address_city_normalized.getD "")))) : ℚ) / 100 *
          (1/10) := by
    intro m hm1 hm2
    unfold locationComponent
    rw [if_neg hq, if_neg (by simp [hm1]), if_neg (by simp [hm2])]
  have hcap : ∀ m, calculate_professional_relevance_score today qc m ≤ 1 :=
    fun m => min_le_right _ _
  set B : QMember := { A with office_address_city_normalized := x } with hBdef
  have hlocA : locationComponent qc A = 1/4 := hwork A hwA
  have hlocB : locationComponent qc B =
      ((max (fuzz_ratio (pyLower (qc.location.getD ""))
          (pyLower (B.office_address_city_normalized.getD "")))
        (fuzz_ratio (pyLower (qc.location.getD ""))
          (pyLower (B.home_address_city_normalized.getD "")))) : ℚ) / 100 *
        (1/10) := hfuzzy B hwB hhA
  have hlocB_le : locationComponent qc B ≤ 1/10 := by
    rw [hlocB]
    have h2 : (fuzz_ratio (pyLower (qc.location.getD ""))
        (pyLower (B.office_address_city_normalized.getD "")) : ℚ) ≤ 100 := by
      exact_mod_cast fuzz_ratio_le_100 _ _
    have h3 : (fuzz_ratio (pyLower (qc.location.getD ""))
        (pyLower (B.home_address_city_normalized.getD "")) : ℚ) ≤ 100 := by
      exact_mod_cast fuzz_ratio_le_100 _ _
    have hq100 : max (fuzz_ratio (pyLower (qc.location.getD ""))
          (pyLower (B.office_address_city_normalized.getD "")) : ℚ)
        (fuzz_ratio (pyLower (qc.location.getD ""))
          (pyLower (B.home_address_city_normalized.getD "")) : ℚ) ≤ 100 :=
      max_le h2 h3
    linarith
  have hconfB : confComponent B = confComponent A := rfl
  have hprofB : professionComponent qc B = professionComponent qc A := rfl
  have hfreshB : freshnessComponent today B = freshnessComponent today A := rfl
  have hcontB : contactComponent B = contactComponent A := rfl
  have hconfbd : 0 ≤ confComponent A ∧ confComponent A ≤ 3/10 := by
    unfold confComponent
    constructor
    · positivity
    · linarith
  have hprofbd := professionComponent_bounds qc A
  have hfreshbd := freshnessComponent_bounds today A
  have hcontbd := contactComponent_bounds A
  have hlocBnn : 0 ≤ locationComponent qc B := (locationComponent_bounds qc B).1
  have hlt : calculate_professional_relevance_score today qc B <
      calculate_professional_relevance_score today qc A := by
    unfold calculate_professional_relevance_score
    rw [hconfB, hprofB, hfreshB, hcontB, hlocA]
    have hBsum : confComponent A + professionComponent qc A +
        locationComponent qc B + freshnessComponent today A +
        contactComponent A ≤ 19/20 := by linarith
    rw [min_eq_left (by linarith)]
    rcases le_or_lt (confComponent A + professionComponent qc A + 1/4 +
        freshnessComponent today A + contactComponent A) 1 with hle | hgt
    · rw [min_eq_left hle]
      linarith
    · rw [min_eq_right (le_of_lt hgt)]
      linarith
  have hne : A ≠ B := by
    intro h
    have : A.office_address_city_normalized = x := by
      rw [h]
    rw [this] at hwA
    rw [hwA] at hwB
    cases hwB
  refine ⟨hwork, hhome, hfuzzy, hcap, hlt, ?_, ?_⟩
  · exact rank_pair_head today qc A B hne hlt _ (Or.inl rfl)
  · exact rank_pair_head today qc A B hne hlt _ (Or.inr rfl)

/-- Witness for C9 at a concrete query and pair of members: a Makati-based
lawyer versus an identical member based in Cebu, for the query location
`"makati"`. -/
theorem c9_witness :
    (rank_professional_results 0 ⟨some "lawyer", some "makati"⟩
        [⟨some 1, some "lawyer", none, some "Makati", some "Quezon", none,
            some "j@l.ph", none⟩,
          ⟨some 1, some "lawyer", none, some "Cebu", some "Quezon", none,
            some "j@l.ph", none⟩]).head? =
      some ⟨some 1, some "lawyer", none, some "Makati", some "Quezon", none,
        some "j@l.ph", none⟩ := by
  have h := c9_location_ranking 0 ⟨some "lawyer", some "makati"⟩ (by decide)
    ⟨some 1, some "lawyer", none, some "Makati", some "Quezon", none,
      some "j@l.ph", none⟩ (some "Cebu")
    (by norm_num) (by norm_num) (by decide) (by decide) (by decide)
  exact h.2.2.2.2.2.1

end SJDirectory
